import Mathlib

/-!
Verification development for the jobapp resume-optimization pipeline.

This file gives a shallow embedding, in Lean 4, of the parts of the
repository that the specification's testable properties talk about:

* `src/jobapp/resume_writer/yaml_processing_utils.py`
  (`apply_selective_resume_updates`, `extract_allowed_updates_only`),
* `src/jobapp/resume_writer/utils.py`
  (`clean_yaml_from_llm`, `parse_llm_yaml_to_dict`),
* `src/jobapp/core/api_key_manager.py` (the `APIKeyManager` state machine),
* `src/jobapp/core/llm_interface.py` (`send_prompt` and the retry wrapper),
* `src/jobapp/resume_writer/legacy_pipeline_7_prompts/langgraph_resume_pipeline.py`
  (the phase nodes and the LangGraph state machine).

Python values flowing through these functions are modelled by the
inductive type `Yaml` (parsed-YAML values: None, bool, int, str, list,
dict); Python dicts are insertion-ordered association lists.  In-place
mutation in the Python source becomes explicit state passing; statements
that can raise become `Except` computations, with `PyErr` standing for
the exception that is raised.  LLM network calls are abstracted by an
oracle supplying each phase's response text, because the repository
itself treats the model as an external "send prompt, get text" service.
-/

/-! ## Python string primitives (modelled on `List Char` so they compute) -/

/-- Python `str.strip()` / `str.lower()` whitespace set, for the ASCII
strings handled here. -/
def pyIsWs (c : Char) : Bool := c = ' ' || c = '\t' || c = '\n' || c = '\r'

/-- Python `str.strip()` with no argument: drop leading and trailing
whitespace. -/
def pyStrip (s : String) : String :=
  ⟨((s.data.dropWhile pyIsWs).reverse.dropWhile pyIsWs).reverse⟩

/-- ASCII lower-casing of one character (Python `str.lower()` on the ASCII
error messages and YAML text that the code handles). -/
def pyLowerChar (c : Char) : Char :=
  if 'A' ≤ c ∧ c ≤ 'Z' then Char.ofNat (c.toNat + 32) else c

/-- Python `str.lower()`. -/
def pyLower (s : String) : String := ⟨s.data.map pyLowerChar⟩

/-- Whether `pat` occurs at the start of `l` (character-list version, so
that proofs can evaluate it). -/
def listStarts : List Char → List Char → Bool
  | [], _ => true
  | _ :: _, [] => false
  | a :: as, b :: bs => a = b && listStarts as bs

/-- Python `pat in s` on strings: substring containment. -/
def pyInStr (pat s : String) : Bool :=
  s.data.tails.any (fun t => listStarts pat.data t)

/-- First index of `pat` inside `l`, if any (Python `str.find`). -/
def listFindSub (pat : List Char) : List Char → Option Nat
  | [] => if listStarts pat [] then some 0 else none
  | c :: cs =>
    if listStarts pat (c :: cs) then some 0
    else (listFindSub pat cs).map (· + 1)

/-- Python `s.find(pat)` returning an option instead of `-1`. -/
def pyFind (s pat : String) : Option Nat := listFindSub pat.data s.data

/-- Python string slice `s[i:]`. -/
def pyDropStr (s : String) (i : Nat) : String := ⟨s.data.drop i⟩

/-- Python string slice `s[:i]`. -/
def pyTakeStr (s : String) (i : Nat) : String := ⟨s.data.take i⟩

/-- Python `s.split(sep, 1)[0]` and `[1]` for a one-character separator
that is known to occur: the text before and after the first `sep`. -/
def pySplitOnce (s : String) (sep : Char) : String × String :=
  match listFindSub [sep] s.data with
  | none => (s, "")
  | some i => (⟨s.data.take i⟩, ⟨s.data.drop (i + 1)⟩)

/-- Python `s.rstrip(c)` for a single strip character. -/
def pyRstrip (s : String) (c : Char) : String :=
  ⟨(s.data.reverse.dropWhile (· = c)).reverse⟩

/-- Python `<` on strings (lexicographic on code points), used by
`_reset_expired_quotas` to compare `YYYY-MM-DD` date strings. -/
def pyStrLtL : List Char → List Char → Bool
  | [], [] => false
  | [], _ :: _ => true
  | _ :: _, [] => false
  | a :: as, b :: bs =>
    if a.toNat < b.toNat then true
    else if b.toNat < a.toNat then false
    else pyStrLtL as bs

/-- Python `a < b` on strings. -/
def pyStrLt (a b : String) : Bool := pyStrLtL a.data b.data

/-! ## Parsed-YAML values (Python objects produced by `yaml.safe_load`) -/

/-- A Python value as produced by parsing YAML: `None`, `bool`, `int`,
`str`, `list`, or insertion-ordered `dict` with string keys.  Floats do
not occur in the documents and scores this development reasons about. -/
inductive Yaml where
  | null : Yaml
  | bool (b : Bool) : Yaml
  | int (n : Int) : Yaml
  | str (s : String) : Yaml
  | list (xs : List Yaml) : Yaml
  | dict (kvs : List (String × Yaml)) : Yaml
deriving Repr

/-- A Python dict (insertion-ordered association list, string keys). -/
abbrev Ydict := List (String × Yaml)

/-- Exceptions a modelled Python statement can raise.  `parseError` and
`applyError` are the repository's own `PipelineContextParseError` and
`PipelineContextApplyError`; `recursionLimit` models the graph engine's
recursion bound. -/
inductive PyErr where
  | typeError : PyErr
  | keyError : PyErr
  | attributeError : PyErr
  | valueError : PyErr
  | parseError : PyErr
  | applyError : PyErr
  | recursionLimit : PyErr
deriving DecidableEq, Repr

/-- Dict lookup `d[k]`-style: first binding of `k`, if any. -/
def dget (d : Ydict) (k : String) : Option Yaml :=
  match d with
  | [] => none
  | (k1, v) :: rest => if k1 = k then some v else dget rest k

/-- Python `k in d` for dicts. -/
def dmem (d : Ydict) (k : String) : Bool := (dget d k).isSome

/-- Python `d[k] = v`: overwrite in place if `k` is present (keeping its
position), else append a new binding. -/
def dset (d : Ydict) (k : String) (v : Yaml) : Ydict :=
  match d with
  | [] => [(k, v)]
  | (k1, v1) :: rest =>
    if k1 = k then (k1, v) :: rest else (k1, v1) :: dset rest k v

/-- Python `d1.update(d2)` on dicts: set every binding of `d2` in `d1`,
in `d2`'s order. -/
def pyDictUpdate (d1 d2 : Ydict) : Ydict :=
  match d2 with
  | [] => d1
  | (k, v) :: rest => pyDictUpdate (dset d1 k v) rest

/-- Python truthiness of a parsed-YAML value (`if x:`). -/
def pyTruthy : Yaml → Bool
  | .null => false
  | .bool b => b
  | .int n => n ≠ 0
  | .str s => s ≠ ""
  | .list xs => !xs.isEmpty
  | .dict kvs => !kvs.isEmpty

mutual

/-- Python `str(v)` of a parsed-YAML value (top level: strings are shown
bare).  Compiled by well-founded recursion over the nested value; its
equation lemmas drive concrete evaluation in proofs. -/
def pyStr : Yaml → String
  | .null => "None"
  | .bool b => if b then "True" else "False"
  | .int n => toString n
  | .str s => s
  | .list xs => "[" ++ pyReprJoin xs ++ "]"
  | .dict kvs => "\x7b" ++ pyReprJoinD kvs ++ "\x7d"

/-- Python `repr(v)`: like `str(v)` but strings are quoted.  (Escape
sequences inside strings are not reproduced; the documents under test
contain none.) -/
def pyRepr : Yaml → String
  | .str s => "\x27" ++ s ++ "\x27"
  | v => pyStr v

/-- Comma-joined `repr`s of list elements. -/
def pyReprJoin : List Yaml → String
  | [] => ""
  | [x] => pyRepr x
  | x :: xs => pyRepr x ++ ", " ++ pyReprJoin xs

/-- Comma-joined `repr`s of dict entries. -/
def pyReprJoinD : List (String × Yaml) → String
  | [] => ""
  | [(k, v)] => "\x27" ++ k ++ "\x27: " ++ pyRepr v
  | (k, v) :: kvs => "\x27" ++ k ++ "\x27: " ++ pyRepr v ++ ", " ++ pyReprJoinD kvs

end

/-- Python `' '.join(str(v) for v in item.values())`, the "stringified
values" that the bracket-filter language matches against. -/
def joinVals (d : Ydict) : String :=
  match d with
  | [] => ""
  | [(_, v)] => pyStr v
  | (_, v) :: rest => pyStr v ++ " " ++ joinVals rest

/-- Python `key in container` where the container is an arbitrary value:
key membership for dicts, element equality for lists, substring test for
strings; other values raise `TypeError`. -/
def pyContains (container : Yaml) (key : String) : Except PyErr Bool :=
  match container with
  | .dict kvs => .ok (dmem kvs key)
  | .list xs => .ok (xs.any fun x => match x with | .str s => s = key | _ => false)
  | .str s => .ok (pyInStr key s)
  | _ => .error .typeError

/-- Python subscript `container[key]` with a string key: dict lookup
(raising `KeyError` when absent); every other container raises
`TypeError`. -/
def pyGetItem (container : Yaml) (key : String) : Except PyErr Yaml :=
  match container with
  | .dict kvs =>
    match dget kvs key with
    | some v => .ok v
    | none => .error .keyError
  | _ => .error .typeError

/-- Python `container.get(key, default)`: only dicts have `.get`; any
other receiver raises `AttributeError`. -/
def pyGetD (container : Yaml) (key : String) (default : Yaml) : Except PyErr Yaml :=
  match container with
  | .dict kvs => .ok ((dget kvs key).getD default)
  | _ => .error .attributeError

/-- Python `d[section][field] = v` where `d` is a dict: raises
`TypeError` when `d[section]` is not a dict (string/list/int item
assignment with a string key). -/
def setField (d : Ydict) (sec fld : String) (v : Yaml) : Except PyErr Ydict :=
  match dget d sec with
  | some (.dict inner) => .ok (dset d sec (.dict (dset inner fld v)))
  | some _ => .error .typeError
  | none => .error .keyError

/-! ## Path expressions (`yaml_processing_utils.py`)

The path language used by `apply_selective_resume_updates` and
`extract_allowed_updates_only`: a path is *bracketed* when it contains
`[` and ends with `]` (section before the first `[`, filter =
the rest with trailing `]`s stripped), else *dotted* when it contains
`.` (split at the first dot), else a *top-level* key. -/

inductive PathKind where
  | bracketed (sec fil : String) : PathKind
  | dotted (sec fld : String) : PathKind
  | top (sec : String) : PathKind
deriving DecidableEq, Repr

/-- Python `path.endswith("]")`: the last character is `]`. -/
def pyEndsBracket (path : String) : Bool := path.data.reverse.headD ' ' = ']'

/-- Classify a path string exactly as the chain of `if` tests in
`apply_selective_resume_updates` does. -/
def parsePath (path : String) : PathKind :=
  if pyInStr "[" path ∧ pyEndsBracket path then
    let (sec, rest) := pySplitOnce path '['
    .bracketed sec (pyRstrip rest ']')
  else if pyInStr "." path then
    let (sec, field) := pySplitOnce path '.'
    .dotted sec field
  else .top path

/-- The top-level document key a path addresses. -/
def baseSection (path : String) : String :=
  match parsePath path with
  | .bracketed s _ => s
  | .dotted s _ => s
  | .top s => s

/-! ## `apply_selective_resume_updates` (yaml_processing_utils.py 374-431) -/

/-- Scan of a list of candidate updates for the first dict matching the
filter. -/
def firstMatchingUpdateL (xs : List Yaml) (fil : String) : Option Ydict :=
  match xs with
  | [] => none
  | .dict u :: rest =>
    if pyInStr fil (joinVals u) then some u else firstMatchingUpdateL rest fil
  | _ :: rest => firstMatchingUpdateL rest fil

/-- The inner `for update in section_updates` loop of the bracketed
branch: the first element that is a dict whose joined values contain the
filter.  Iterating a dict yields its keys and a string yields its
characters (none of which are dicts, so no update is found); iterating an
int, bool or None raises `TypeError`.  The loop only runs when
`section_updates` is truthy. -/
def firstMatchingUpdate (su : Yaml) (fil : String) : Except PyErr (Option Ydict) :=
  match su with
  | .list xs => .ok (firstMatchingUpdateL xs fil)
  | .dict _ => .ok none
  | .str _ => .ok none
  | _ => .error .typeError

/-- The `for i, item in enumerate(section_data)` loop of the bracketed
branch: every dict item whose joined values contain the filter is
shallow-merged (in place) with the first matching update; all other items
are untouched.  The update scan, and hence any `TypeError` it raises,
happens only for matching items. -/
def bracketApplyItems (items : List Yaml) (su : Yaml) (fil : String) :
    Except PyErr (List Yaml) :=
  match items with
  | [] => .ok []
  | item :: rest =>
    match item with
    | .dict d =>
      if pyInStr fil (joinVals d) then
        match firstMatchingUpdate su fil with
        | .error e => .error e
        | .ok mu =>
          let item1 := match mu with
            | some u => Yaml.dict (pyDictUpdate d u)
            | none => Yaml.dict d
          match bracketApplyItems rest su fil with
          | .error e => .error e
          | .ok rest1 => .ok (item1 :: rest1)
      else
        match bracketApplyItems rest su fil with
        | .error e => .error e
        | .ok rest1 => .ok (.dict d :: rest1)
    | other =>
      match bracketApplyItems rest su fil with
      | .error e => .error e
      | .ok rest1 => .ok (other :: rest1)

/-- One iteration of the `for path in allowed_paths` loop of
`apply_selective_resume_updates`' on the current document state.  Returns
the mutated document, or the exception the Python body would raise. -/
def applyOnePath (resume : Ydict) (updates : Yaml) (path : String) :
    Except PyErr Ydict :=
  match parsePath path with
  | .bracketed sec fil =>
    -- section_updates = updates.get(section_path, [])
    match pyGetD updates sec (.list []) with
    | .error e => .error e
    | .ok su =>
      if !pyTruthy su then .ok resume
      else
        -- section_data = resume_dict.get(section_path, [])
        match (dget resume sec).getD (.list []) with
        | .list items =>
          match bracketApplyItems items su fil with
          | .error e => .error e
          | .ok items1 =>
            -- the list object is resume_dict[section_path], mutated in place
            .ok (if dmem resume sec then dset resume sec (.list items1) else resume)
        | _ => .ok resume
  | .dotted sec fld =>
    match pyContains updates sec with
    | .error e => .error e
    | .ok b =>
      if !b then .ok resume
      else
        match pyGetItem updates sec with
        | .error e => .error e
        | .ok su =>
          match su with
          | .dict sd =>
            -- `if section not in resume_dict: resume_dict[section] = {}`
            match dget sd fld with
            | some v =>
              setField (if dmem resume sec then resume else dset resume sec (.dict []))
                sec fld v
            | none => .ok (if dmem resume sec then resume else dset resume sec (.dict []))
          | _ => .ok resume
  | .top sec =>
    match pyContains updates sec with
    | .error e => .error e
    | .ok b =>
      if !b then .ok resume
      else
        match pyGetItem updates sec with
        | .error e => .error e
        | .ok v => .ok (dset resume sec v)

/-- `apply_selective_resume_updates(resume_dict, updates, allowed_paths)`:
fold of the per-path body over the allowed paths, mutating `resume_dict`
in place (modelled by threading the document). -/
def apply_selective_resume_updates (resume : Ydict) (updates : Yaml)
    (allowed_paths : List String) : Except PyErr Ydict :=
  match allowed_paths with
  | [] => .ok resume
  | p :: rest =>
    match applyOnePath resume updates p with
    | .error e => .error e
    | .ok resume1 => apply_selective_resume_updates resume1 updates rest

/-! ## `extract_allowed_updates_only` (yaml_processing_utils.py 434-473) -/

/-- One iteration of the `for path in allowed_paths` loop of
`extract_allowed_updates_only`, threading the accumulator dict
`allowed_updates`. -/
def extractOnePath (updates : Yaml) (acc : Ydict) (path : String) :
    Except PyErr Ydict :=
  match parsePath path with
  | .bracketed sec _ =>
    match pyContains updates sec with
    | .error e => .error e
    | .ok b =>
      if !b then .ok acc
      else
        match pyGetItem updates sec with
        | .error e => .error e
        | .ok v => .ok (dset acc sec v)
  | .dotted sec fld =>
    match pyContains updates sec with
    | .error e => .error e
    | .ok b =>
      if !b then .ok acc
      else
        match pyGetItem updates sec with
        | .error e => .error e
        | .ok su =>
          match su with
          | .dict sd =>
            -- `if section not in allowed_updates: allowed_updates[section] = {}`
            match dget sd fld with
            | some v =>
              setField (if dmem acc sec then acc else dset acc sec (.dict [])) sec fld v
            | none => .ok (if dmem acc sec then acc else dset acc sec (.dict []))
          | _ => .ok acc
  | .top sec =>
    match pyContains updates sec with
    | .error e => .error e
    | .ok b =>
      if !b then .ok acc
      else
        match pyGetItem updates sec with
        | .error e => .error e
        | .ok v => .ok (dset acc sec v)

/-- Loop of `extract_allowed_updates_only` over the path list. -/
def extractGo (updates : Yaml) (acc : Ydict) : List String → Except PyErr Ydict
  | [] => .ok acc
  | p :: rest =>
    match extractOnePath updates acc p with
    | .error e => .error e
    | .ok acc1 => extractGo updates acc1 rest

/-- `extract_allowed_updates_only(updates, allowed_paths)`: project the
update map down to the allowed paths, starting from an empty
`allowed_updates` dict. -/
def extract_allowed_updates_only (updates : Yaml) (allowed_paths : List String) :
    Except PyErr Ydict :=
  extractGo updates [] allowed_paths

/-! ## A model of PyYAML `yaml.safe_load`

`yaml.safe_load` is an external library.  It is modelled here on the
fragment of YAML the development's inputs use: flat block mappings
(`key: value` lines), flow mappings and sequences (`{..}`, `[..]`),
integer, boolean, null and plain-string scalars; the empty document
parses to `None`.  On documents outside this fragment the model still
returns some value or an error, but only its behaviour on the fragment is
relied on. -/

/-- Strip on character lists. -/
def trimL (cs : List Char) : List Char :=
  ((cs.dropWhile pyIsWs).reverse.dropWhile pyIsWs).reverse

/-- Split a character list at a separator character. -/
def splitOnChar (sep : Char) : List Char → List (List Char)
  | [] => [[]]
  | c :: cs =>
    match splitOnChar sep cs with
    | [] => [[c]]
    | h :: t => if c = sep then [] :: h :: t else (c :: h) :: t

/-- Split on commas not nested inside braces/brackets (depth-tracking). -/
def splitTop : List Char → Nat → List (List Char)
  | [], _ => [[]]
  | c :: cs, d =>
    let d1 := if c = '{' ∨ c = '[' then d + 1
              else if c = '}' ∨ c = ']' then d - 1 else d
    match splitTop cs d1 with
    | [] => [[c]]
    | h :: t => if c = ',' ∧ d = 0 then [] :: h :: t else (c :: h) :: t

/-- Numeric value of a digit run. -/
def digitsVal (l : List Char) : Nat :=
  l.foldl (fun a c => a * 10 + (c.toNat - 48)) 0

/-- An optional integer literal (optionally signed digit run). -/
def intLit (t : List Char) : Option Int :=
  match t with
  | [] => none
  | '-' :: rest =>
    if rest ≠ [] ∧ rest.all (fun c => c.isDigit) then some (-(digitsVal rest : Int)) else none
  | _ =>
    if t.all (fun c => c.isDigit) then some ((digitsVal t : Nat) : Int) else none

/-- A YAML plain scalar: bool / null / int / string. -/
def parseScalar (t : List Char) : Yaml :=
  if t = "true".data ∨ t = "True".data then .bool true
  else if t = "false".data ∨ t = "False".data then .bool false
  else if t = "null".data ∨ t = "~".data then .null
  else match intLit t with
    | some n => .int n
    | none => .str ⟨t⟩

/-- Parse `key: value` flow-mapping entries with a given value parser. -/
def parseFlowEntries (pf : List Char → Option Yaml) :
    List (List Char) → Option (List (String × Yaml))
  | [] => some []
  | part :: rest =>
    match listFindSub [':'] part with
    | none => none
    | some i =>
      match pf (part.drop (i + 1)), parseFlowEntries pf rest with
      | some v, some r => some ((⟨trimL (part.take i)⟩, v) :: r)
      | _, _ => none

/-- Parse flow-sequence items with a given value parser. -/
def parseFlowItems (pf : List Char → Option Yaml) :
    List (List Char) → Option (List Yaml)
  | [] => some []
  | part :: rest =>
    match pf part, parseFlowItems pf rest with
    | some v, some r => some (v :: r)
    | _, _ => none

/-- Fuelled parser for a YAML flow value (scalar, `\x7b..\x7d` mapping, or
`[..]` sequence). -/
def parseFlowF : Nat → List Char → Option Yaml
  | 0, _ => none
  | fuel + 1, cs =>
    let t := trimL cs
    match t with
    | [] => some .null
    | c :: _ =>
      if c = '{' then
        if t.reverse.headD ' ' ≠ '}' then none
        else
          let inner := (t.drop 1).dropLast
          if trimL inner = [] then some (.dict [])
          else (parseFlowEntries (parseFlowF fuel) (splitTop inner 0)).map .dict
      else if c = '[' then
        if t.reverse.headD ' ' ≠ ']' then none
        else
          let inner := (t.drop 1).dropLast
          if trimL inner = [] then some (.list [])
          else (parseFlowItems (parseFlowF fuel) (splitTop inner 0)).map .list
      else some (parseScalar t)

/-- A line of a flat block mapping: starts with a plain key character and
contains a colon. -/
def isBlockLine (l : List Char) : Bool :=
  match l with
  | [] => false
  | c :: _ =>
    !(c = ' ' ∨ c = '{' ∨ c = '[' ∨ c = '-') && (listFindSub [':'] l).isSome

/-- Parse the lines of a flat block mapping. -/
def parseBlockLines : List (List Char) → Option (List (String × Yaml))
  | [] => some []
  | l :: rest =>
    match listFindSub [':'] l with
    | none => none
    | some i =>
      match parseFlowF ((l.drop (i + 1)).length + 1) (l.drop (i + 1)),
            parseBlockLines rest with
      | some v, some r => some ((⟨trimL (l.take i)⟩, v) :: r)
      | _, _ => none

/-- Model of `yaml.safe_load` on the supported fragment: `.error` stands
for a raised `yaml.YAMLError`. -/
def safe_load (s : String) : Except String Yaml :=
  let t := trimL s.data
  if t = [] then .ok .null
  else
    let lines := (splitOnChar '\n' t).filter (fun l => trimL l ≠ [])
    if lines ≠ [] ∧ lines.all isBlockLine then
      match parseBlockLines lines with
      | some kvs => .ok (.dict kvs)
      | none => .error "yaml error"
    else
      match parseFlowF (t.length + 1) t with
      | some v => .ok v
      | none => .error "yaml error"

/-! ## `clean_yaml_from_llm` and `parse_llm_yaml_to_dict` (utils.py 104-139) -/

/-- The `potential_starts` fallback list of `clean_yaml_from_llm`. -/
def potential_starts : List String :=
  ["PROFILE_OPTIMIZATION_PLAN:", "FINAL_RESUME_YAML:", "YAML_MARKDOWN:",
   "version:", "sections:", "metadata:", "changelog:"]

/-- The fallback loop of `clean_yaml_from_llm`: truncate at the first
`potential_starts` marker found (markers tried in list order), then
strip. -/
def cleanFallback (raw : String) : List String → String
  | [] => pyStrip raw
  | p :: rest =>
    match pyFind raw p with
    | some i => pyStrip (pyDropStr raw i)
    | none => cleanFallback raw rest

/-- `clean_yaml_from_llm(raw_string)`: extract the body of the first
```` ```yaml ... ``` ```` fence (non-greedy body, as in the regex
`r.. yaml\n(.*?)\n.. `) if one closes; otherwise fall back to the
marker-truncation loop. -/
def clean_yaml_from_llm (raw : String) : String :=
  match listFindSub "```yaml\n".data raw.data with
  | some i =>
    let rest := raw.data.drop (i + 8)
    match listFindSub "\n```".data rest with
    | some k => pyStrip ⟨rest.take k⟩
    | none => cleanFallback raw potential_starts
  | none => cleanFallback raw potential_starts

/-- `parse_llm_yaml_to_dict(raw_string)`: clean, then `yaml.safe_load`;
a `yaml.YAMLError` is swallowed and an empty dict returned.  Note the
success path returns `safe_load`'s value unchanged, whatever its shape. -/
def parse_llm_yaml_to_dict (raw : String) : Yaml :=
  match safe_load (clean_yaml_from_llm raw) with
  | .ok v => v
  | .error _ => .dict []

/-! ## `parse_formatting_response` (utils.py 238-253) -/

/-- Try to match ```` ```(yaml)?\s*\n ```` at the head of `l`; on success
return the remainder after the opening fence (the non-greedy `\s*\n`
consumes non-newline whitespace up to the first newline). -/
def fenceHeadAt (l : List Char) : Option (List Char) :=
  if listStarts "```".data l then
    let afterTicks := l.drop 3
    let afterTag := if listStarts "yaml".data afterTicks then afterTicks.drop 4 else afterTicks
    let afterWs := afterTag.dropWhile (fun c => c = ' ' ∨ c = '\t' ∨ c = '\r')
    match afterWs with
    | '\n' :: rest => some rest
    | _ => none
  else none

/-- Scan for the first opening fence whose body closes with ```` \n``` ````. -/
def fmtScan : List Char → Option (List Char)
  | [] => none
  | c :: cs =>
    match fenceHeadAt (c :: cs) with
    | some rest =>
      match listFindSub "\n```".data rest with
      | some k => some (rest.take k)
      | none => fmtScan cs
    | none => fmtScan cs

/-- `parse_formatting_response(response_content)`: the body of the first
fenced code block (stripped), else the whole response stripped. -/
def parse_formatting_response (response_content : String) : String :=
  match fmtScan response_content.data with
  | some body => pyStrip ⟨body⟩
  | none => pyStrip response_content

/-! ## `APIKeyManager` (core/api_key_manager.py)

The manager's state: identifiers of the credential slots, the current
slot, the session-scoped failed set, the persisted
`key_env -> date exhausted` map, and the class-level once-per-day reset
marker for this provider (`_session_reset_checked`).  Dates are the
`YYYY-MM-DD` strings the code itself uses; the provider-local current
date is passed in as a parameter (the code reads the clock).  The
provider is not OpenRouter, so `mark_key_quota_exhausted` uses the
current provider-local date (the OpenRouter reset-timestamp branch is
not exercised). -/

structure KeyManager where
  primary_key_env : String
  backup_key_envs : List String
  current_key_env : String
  failed_keys : List String
  quota_exhausted_keys : List (String × String)
  session_reset_checked : Option String
deriving Repr, DecidableEq

/-- `APIKeyManager.__init__` with an empty persisted state file. -/
def initKeyManager (primary : String) (backups : List String) : KeyManager :=
  ⟨primary, backups, primary, [], [], none⟩

/-- Association-list update for the quota map (`self.quota_exhausted_keys[key_env] = date`). -/
def qset (q : List (String × String)) (k v : String) : List (String × String) :=
  match q with
  | [] => [(k, v)]
  | (k1, v1) :: rest =>
    if k1 = k then (k1, v) :: rest else (k1, v1) :: qset rest k v

/-- Membership in the quota map. -/
def qmem (q : List (String × String)) (k : String) : Bool :=
  q.any (fun kv => kv.1 = k)

/-- `_reset_expired_quotas`: drop every quota entry whose recorded date
is (string-)less than the provider-local current date. -/
def resetExpiredQuotas (today : String) (m : KeyManager) : KeyManager :=
  { m with quota_exhausted_keys :=
      m.quota_exhausted_keys.filter (fun kv => !pyStrLt kv.2 today) }

/-- `_ensure_quota_reset_checked`: run the expiry reset at most once per
provider-local calendar day. -/
def ensureQuotaResetChecked (today : String) (m : KeyManager) : KeyManager :=
  if m.session_reset_checked = some today then m
  else { resetExpiredQuotas today m with session_reset_checked := some today }

/-- `is_key_available`: not failed and not quota-exhausted. -/
def is_key_available (m : KeyManager) (k : String) : Bool :=
  !m.failed_keys.contains k && !qmem m.quota_exhausted_keys k

/-- `mark_key_failed`. -/
def mark_key_failed (m : KeyManager) (k : String) : KeyManager :=
  if m.failed_keys.contains k then m
  else { m with failed_keys := m.failed_keys ++ [k] }

/-- `mark_key_quota_exhausted` for a non-OpenRouter provider: record the
provider-local current date. -/
def mark_key_quota_exhausted (m : KeyManager) (k today : String) : KeyManager :=
  { m with quota_exhausted_keys := qset m.quota_exhausted_keys k today }

/-- `get_next_key_env`: after the lazy daily reset check, keep the
current key if it is still usable, otherwise rotate to the first usable
key in primary-then-backups order; `none` when every key is failed or
exhausted. -/
def get_next_key_env (today : String) (m : KeyManager) :
    Option String × KeyManager :=
  let m := ensureQuotaResetChecked today m
  if is_key_available m m.current_key_env then (some m.current_key_env, m)
  else
    match (m.primary_key_env :: m.backup_key_envs).filter (is_key_available m) with
    | [] => (none, m)
    | k :: _ => (some k, { m with current_key_env := k })

/-! ### Error classification (api_key_manager.py 163-267, 334-354) -/

/-- The RPM (rate-per-minute) indicator substrings of
`is_rate_limit_error`: generic, OpenRouter, OpenAI and Anthropic lists
concatenated. -/
def rpmIndicators : List String :=
  ["rate limit exceeded", "too many requests", "requests per minute", "rpm", "429",
   "free-models-per-min", "requests-per-minute", "x-ratelimit-limit", "x-ratelimit-remaining",
   "rate limit reached", "ratelimiterror", "x-ratelimit-remaining-requests",
   "x-ratelimit-remaining-tokens", "tokens per minute", "tpm",
   "anthropic-ratelimit-requests-remaining", "anthropic-ratelimit-tokens-remaining",
   "retry-after", "input tokens per minute", "output tokens per minute", "itpm", "otpm"]

/-- The daily-quota indicator substrings of `is_quota_exhausted_error`:
Google, OpenRouter, OpenAI and Anthropic lists concatenated. -/
def quotaIndicators : List String :=
  ["daily limit exceeded", "quota exceeded", "resourceexhausted",
   "generativelanguage.googleapis.com/generate_content_free_tier_requests",
   "generaterequestsperdayperprojectpermodel-freetier", "requests per day", "rpd",
   "daily quota",
   "free-models-per-day", "requests-per-day", "daily limit", "credit limit",
   "negative credit balance", "402",
   "insufficient_quota", "you exceeded your current quota",
   "please check your plan and billing details", "quota exceeded", "billing details",
   "monthly spend limit", "spend limit", "credit limit exceeded",
   "monthly usage limit", "organization limit exceeded"]

/-- `is_quota_exhausted_error(error)`: some quota indicator occurs in the
lowercased error text. -/
def is_quota_exhausted_error (errorMsg : String) : Bool :=
  quotaIndicators.any (fun ind => pyInStr ind (pyLower errorMsg))

/-- `is_rate_limit_error(error)`: some RPM indicator occurs in the
lowercased error text, and the error is *not* classified as daily-quota
exhaustion. -/
def is_rate_limit_error (errorMsg : String) : Bool :=
  if rpmIndicators.any (fun ind => pyInStr ind (pyLower errorMsg)) then
    !is_quota_exhausted_error errorMsg
  else false

/-- The string returned by `handle_api_error` together with the updated
manager state. -/
def handle_api_error (m : KeyManager) (errorMsg : String) (key_env today : String) :
    String × KeyManager :=
  if is_quota_exhausted_error errorMsg then
    ("quota_exhausted", mark_key_quota_exhausted m key_env today)
  else if is_rate_limit_error errorMsg then
    ("rate_limited", m)
  else
    ("failed", mark_key_failed m key_env)

/-! ## `LLMInterface` (core/llm_interface.py)

The network invocation is abstracted by an oracle giving the outcome of
the i-th actual LLM call (`.ok text` or `.error message`); model
construction itself is assumed not to fail.  The
`_handle_llm_call_with_key_management` `while True:` loop terminates
because retries are bounded and rotation always moves off a slot just
marked bad; the `fuel` argument makes that bound explicit, and theorems
supply enough fuel for it never to be hit. -/

/-- One state of the retry loop of `_handle_llm_call_with_key_management`
and its continuation.  Arguments after the fuel: the key manager (absent
when no backup keys are configured), the current key, the RPM retry
count, and the index of the next LLM call. -/
def handleLLMCallGo (oracle : Nat → Except String String) (today : String)
    (maxRetries : Nat) :
    Nat → Option KeyManager → Option String → Nat → Nat → Except String String
  | 0, _, _, _, _ => .error "model: retry loop fuel exhausted"
  | fuel + 1, mgr, _currentKey, rpm, idx =>
    match mgr with
    | some m =>
      match get_next_key_env today m with
      | (none, _) => .error "All API keys are exhausted or failed"
      | (some k, m1) =>
        match oracle idx with
        | .ok r => .ok r
        | .error e =>
          let (etype, m2) := handle_api_error m1 e k today
          if etype = "rate_limited" then
            if rpm < maxRetries then
              handleLLMCallGo oracle today maxRetries fuel (some m2) (some k) (rpm + 1) (idx + 1)
            else .error e
          else
            match get_next_key_env today m2 with
            | (some k2, m3) =>
              if k2 ≠ k then
                handleLLMCallGo oracle today maxRetries fuel (some m3) (some k2) 0 (idx + 1)
              else .error e
            | (none, _) => .error e
    | none =>
      match oracle idx with
      | .ok r => .ok r
      | .error e => .error e

/-- `_handle_llm_call_with_key_management`: run the retry/rotation loop
from the initial state (primary key current, RPM count zero). -/
def handle_llm_call_with_key_management (oracle : Nat → Except String String)
    (today : String) (maxRetries : Nat) (mgr : Option KeyManager)
    (primaryKey : Option String) (fuel : Nat) : Except String String :=
  handleLLMCallGo oracle today maxRetries fuel mgr primaryKey 0 0

/-- `send_prompt(...)` given the outcomes of the primary-model call and
the fallback-model call (each an application of
`handle_llm_call_with_key_management`): on primary failure with
`fallback=True`, try the fallback; when both fail, *return* the string
`"[LLM Error: Primary failed (e), Fallback failed (f)]"` (the exceptions
are caught, not re-raised). -/
def send_prompt (primaryResult fallbackResult : Except String String)
    (fallback : Bool) : Except String String :=
  match primaryResult with
  | .ok r => .ok r
  | .error e =>
    if fallback then
      match fallbackResult with
      | .ok r => .ok r
      | .error f =>
        .ok ("[LLM Error: Primary failed (" ++ e ++ "), Fallback failed (" ++ f ++ ")]")
    else .ok ("[LLM Error: " ++ e ++ "]")

/-! ## The resume optimization pipeline
(legacy_pipeline_7_prompts/langgraph_resume_pipeline.py)

The pipeline context is the subset of the Python context dict that
carries the claims' state: the two documents, the string inputs, the
`intermediates` entries that drive control flow
(`profile_planning_output`, `bullet_points_output`, `jd_analysis_output`,
`validation_attempts`, `is_valid`, `dishonesty_score`,
`edited_resume_versions`, `refinement_changelog`, `formatted_resume`).
Transcript-only intermediates (`*_inputs`, chat logs) and the rendered
prompt text do not influence any modelled behaviour and are omitted;
prompt rendering (`format_yaml_with_quotes`, `format_current_sections`)
is presentation-only and assumed not to raise.

LLM responses are supplied by a `PhaseOracle`; the per-execution index of
the optimizer/validator/refiner response is the number of completed
validation passes, which increases by one between any two successive
executions of the same node, so distinct executions read distinct oracle
entries exactly as distinct network calls return distinct texts. -/

structure PhaseOracle where
  jd_analysis : String
  skill_mapping : String
  profile_planning : String
  bullet_points : String
  optimizer : Nat → String
  validator : Nat → String
  refiner : Nat → String
  formatter : String

structure PipeCtx where
  input_resume : Ydict
  edited_resume : Ydict
  job_description : String
  experiences : String
  jd_analysis_output : Option String
  profile_planning_output : Option String
  bullet_points_output : Option String
  validation_attempts : Nat
  is_valid : Option Bool
  dishonesty_score : Option Yaml
  edited_resume_versions : List Ydict
  refinement_changelog : Option String
  formatted_resume : Option Ydict
  output_done : Bool

/-- The context the pipeline caller builds: documents and strings loaded,
`intermediates` and `chats` empty. -/
def initContext (input : Ydict) (jd exps : String) : PipeCtx :=
  ⟨input, [], jd, exps, none, none, none, 0, none, none, [], none, none, false⟩

/-- `LoadInputsNode.__call__`: the required fields are present and typed
by construction of `PipeCtx`; `edited_resume` becomes a deep copy of
`input_resume` and an initial snapshot is appended to
`intermediates['edited_resume_versions']`. -/
def loadInputsNode (ctx : PipeCtx) : Except PyErr PipeCtx :=
  let edited := ctx.input_resume
  .ok { ctx with
    edited_resume := edited,
    edited_resume_versions := ctx.edited_resume_versions ++ [edited] }

/-- Python `context['edited_resume']['profile']['description']` as read
by planning step 3: `KeyError`/`TypeError` when absent or mistyped. -/
def profileDescriptionOf (d : Ydict) : Except PyErr Yaml :=
  match dget d "profile" with
  | none => .error .keyError
  | some p => pyGetItem p "description"

/-- The `new_description` recovery of `PlanningPhaseNode.__call__`
(wrapped in `try/except` that swallows into `None`): parse the
profile-planning output and take `parsed.get('profile', {}).get('description')`. -/
def planningNewDescription (planningOutput : String) : Yaml :=
  if planningOutput = "" then .null
  else
    let parsed := parse_llm_yaml_to_dict planningOutput
    match pyGetD parsed "profile" (.dict []) with
    | .error _ => .null
    | .ok p =>
      match pyGetD p "description" .null with
      | .error _ => .null
      | .ok v => v

/-- The immediate profile-description application of planning step 3:
when the recovered description is truthy, it is applied through
`apply_selective_resume_updates` on `['profile.description']`. -/
def planningApplied (oracle : PhaseOracle) (ed : Ydict) : Except PyErr Ydict :=
  if pyTruthy (planningNewDescription oracle.profile_planning) then
    apply_selective_resume_updates ed
      (.dict [("profile", .dict [("description",
        planningNewDescription oracle.profile_planning)])])
      ["profile.description"]
  else .ok ed

/-- `PlanningPhaseNode.__call__`: four prompt steps sharing one memory;
step 3 reads the current profile description (raising when missing), and
a parseable replacement description is applied immediately.  No version
snapshot is appended by this node. -/
def planningNode (oracle : PhaseOracle) (ctx : PipeCtx) : Except PyErr PipeCtx :=
  match profileDescriptionOf ctx.edited_resume with
  | .error e => .error e
  | .ok _ =>
    match planningApplied oracle ctx.edited_resume with
    | .error e => .error e
    | .ok ed =>
      .ok { ctx with
        edited_resume := ed,
        jd_analysis_output := some oracle.jd_analysis,
        profile_planning_output := some oracle.profile_planning,
        bullet_points_output := some oracle.bullet_points }

/-- `OptimizationPhaseNode.__call__`: requires both planning outputs
(`KeyError` becomes `PipelineContextParseError`), parses the optimizer
response, filters it with `extract_allowed_updates_only`, applies it with
`apply_selective_resume_updates`, and appends a version snapshot. -/
def optimizationNode (paths : List String) (oracle : PhaseOracle)
    (ctx : PipeCtx) : Except PyErr PipeCtx :=
  match ctx.profile_planning_output, ctx.bullet_points_output with
  | some _, some _ =>
    match extract_allowed_updates_only
        (parse_llm_yaml_to_dict (oracle.optimizer ctx.validation_attempts)) paths with
    | .error e => .error e
    | .ok allowed =>
      match apply_selective_resume_updates ctx.edited_resume (.dict allowed) paths with
      | .error e => .error e
      | .ok ed =>
        .ok { ctx with
          edited_resume := ed,
          edited_resume_versions := ctx.edited_resume_versions ++ [ed] }
  | _, _ => .error .parseError

/-- `isinstance(dishonesty_score, int) and dishonesty_score <= 20`
(Python `bool` is a subclass of `int`, with `True = 1`, `False = 0`). -/
def scoreIsValid : Yaml → Bool
  | .int n => n ≤ 20
  | .bool _ => true
  | _ => false

/-- The `parsed.get("VALIDATION_RESULTS", {}).get("DISHONESTY_SCORE", 0)`
chain of `ValidationPhaseNode.__call__`: raises (`AttributeError`) when
either receiver is not a dict. -/
def validationScore (parsed : Yaml) : Except PyErr Yaml :=
  match pyGetD parsed "VALIDATION_RESULTS" (.dict []) with
  | .error e => .error e
  | .ok results => pyGetD results "DISHONESTY_SCORE" (.int 0)

/-- `ValidationPhaseNode.__call__` with retry ceiling `N`
(`self.max_retries`): parse the validator response, increment
`validation_attempts`, set `is_valid = score <= 20` and
`dishonesty_score`; a failure of the `.get` chain raises
`PipelineContextApplyError`; when the incremented attempt count has
reached `N` and the result is still invalid, force `is_valid = True`. -/
def validationNode (N : Nat) (oracle : PhaseOracle) (ctx : PipeCtx) :
    Except PyErr PipeCtx :=
  match validationScore (parse_llm_yaml_to_dict (oracle.validator ctx.validation_attempts)) with
  | .error _ => .error .applyError
  | .ok score =>
    .ok (if ctx.validation_attempts + 1 ≥ N ∧ !scoreIsValid score then
      { ctx with validation_attempts := ctx.validation_attempts + 1,
                 is_valid := some true, dishonesty_score := some score }
    else
      { ctx with validation_attempts := ctx.validation_attempts + 1,
                 is_valid := some (scoreIsValid score), dishonesty_score := some score })

/-- Earliest match position of `re.search(r'(CHANGES_MADE:|CHANGELOG:)', s)`. -/
def changelogSplitIdx (s : String) : Option Nat :=
  match pyFind s "CHANGES_MADE:", pyFind s "CHANGELOG:" with
  | some i, some j => some (min i j)
  | some i, none => some i
  | none, some j => some j
  | none, none => none

/-- The document part of the refinement response: the text before the
first `CHANGES_MADE:`/`CHANGELOG:` marker, stripped (the whole response
when no marker occurs). -/
def refinementYamlPart (out : String) : String :=
  match changelogSplitIdx out with
  | some i => pyStrip (pyTakeStr out i)
  | none => out

/-- The changelog part of the refinement response (empty when no marker
occurs). -/
def refinementChangelog (out : String) : String :=
  match changelogSplitIdx out with
  | some i => pyStrip (pyDropStr out i)
  | none => ""

/-- `RefinementPhaseNode.__call__` with ceiling `N`
(`self.max_validation_attempts`): split the response at the changelog
marker, parse the document part, apply it (unfiltered) through
`apply_selective_resume_updates`, append a version snapshot, and force
`is_valid = True` when the attempt count has reached the ceiling.  Any
exception in the body is re-raised as `PipelineContextApplyError`.
(The Python code increments nothing here: `iteration` is the current
`validation_attempts` value.) -/
def refinementNode (N : Nat) (paths : List String) (oracle : PhaseOracle)
    (ctx : PipeCtx) : Except PyErr PipeCtx :=
  match apply_selective_resume_updates ctx.edited_resume
      (parse_llm_yaml_to_dict (refinementYamlPart (oracle.refiner ctx.validation_attempts)))
      paths with
  | .error _ => .error .applyError
  | .ok ed =>
    .ok (if ctx.validation_attempts ≥ N then
      { ctx with edited_resume := ed,
                 refinement_changelog :=
                   some (refinementChangelog (oracle.refiner ctx.validation_attempts)),
                 edited_resume_versions := ctx.edited_resume_versions ++ [ed],
                 is_valid := some true }
    else
      { ctx with edited_resume := ed,
                 refinement_changelog :=
                   some (refinementChangelog (oracle.refiner ctx.validation_attempts)),
                 edited_resume_versions := ctx.edited_resume_versions ++ [ed] })

/-- `FormattingPhaseNode.__call__`: needs
`intermediates['jd_analysis_output']` and `input_resume['sections']`
(a `KeyError` for either is wrapped into `PipelineContextApplyError`);
parses the formatter response to a dict (a non-dict raises
`PipelineContextApplyError`), then overwrites its `'sections'` entry with
the one from `input_resume`. -/
def formattingNode (oracle : PhaseOracle) (ctx : PipeCtx) :
    Except PyErr PipeCtx :=
  match ctx.jd_analysis_output with
  | none => .error .applyError
  | some _ =>
    match parse_llm_yaml_to_dict (parse_formatting_response oracle.formatter) with
    | .dict fd =>
      match dget ctx.input_resume "sections" with
      | none => .error .applyError
      | some secs =>
        .ok { ctx with formatted_resume := some (dset fd "sections" secs) }
    | _ => .error .applyError

/-- `OutputCompileNode.__call__`: marks completion. -/
def outputCompileNode (ctx : PipeCtx) : Except PyErr PipeCtx :=
  .ok { ctx with output_done := true }

/-- The conditional edge after validation: `intermediates['is_valid']`
truthy sends the run to formatting, else to refinement. -/
def validation_router (ctx : PipeCtx) : Bool :=
  match ctx.is_valid with
  | some b => b
  | none => false

/-- The `optimization -> validation -> (refinement -> optimization)*`
cycle of the compiled graph.  `fuel` is the graph engine's recursion
limit: a run that exceeds it fails with an engine error
(`GraphRecursionError`), modelled as `.error .recursionLimit`. -/
def optValLoop (N : Nat) (paths : List String) (oracle : PhaseOracle) :
    Nat → PipeCtx → Except PyErr PipeCtx
  | 0, _ => .error .recursionLimit
  | fuel + 1, ctx =>
    match optimizationNode paths oracle ctx with
    | .error e => .error e
    | .ok c1 =>
      match validationNode N oracle c1 with
      | .error e => .error e
      | .ok c2 =>
        if validation_router c2 then .ok c2
        else
          match refinementNode N paths oracle c2 with
          | .error e => .error e
          | .ok c3 => optValLoop N paths oracle fuel c3

/-- `ResumeOptimizationPipeline.invoke`: the full graph
`load_inputs -> planning -> (optimization -> validation <-> refinement)
-> formatting -> output_compile` with validation retry ceiling `N`
(`max_retries`, default 5) and section paths from configuration. -/
def runPipeline (N : Nat) (paths : List String) (oracle : PhaseOracle)
    (fuel : Nat) (ctx0 : PipeCtx) : Except PyErr PipeCtx :=
  match loadInputsNode ctx0 with
  | .error e => .error e
  | .ok c1 =>
    match planningNode oracle c1 with
    | .error e => .error e
    | .ok c2 =>
      match optValLoop N paths oracle fuel c2 with
      | .error e => .error e
      | .ok c3 =>
        match formattingNode oracle c3 with
        | .error e => .error e
        | .ok c4 => outputCompileNode c4

/-! ## Helper predicates for the theorems -/

/-- Whether a parsed value is a mapping. -/
def isYamlDict : Yaml → Bool
  | .dict _ => true
  | _ => false

/-! ## C10: quota classification takes precedence over rate limiting -/

/-- C10: for every error whose lowercased text contains both a
quota-exhaustion indicator and a rate-limit indicator, `handle_api_error`
classifies quota exhaustion (recording the slot as quota-exhausted for
the provider-local day), and `is_rate_limit_error` is false. -/
theorem quota_takes_precedence (m : KeyManager) (msg key_env today : String)
    (hq : quotaIndicators.any (fun ind => pyInStr ind (pyLower msg)) = true)
    (hr : rpmIndicators.any (fun ind => pyInStr ind (pyLower msg)) = true) :
    handle_api_error m msg key_env today
      = ("quota_exhausted", mark_key_quota_exhausted m key_env today) ∧
    is_rate_limit_error msg = false := by
  have hq2 : is_quota_exhausted_error msg = true := hq
  refine ⟨?_, ?_⟩
  · unfold handle_api_error
    rw [hq2]
    simp
  · unfold is_rate_limit_error
    rw [hr, hq2]
    simp

/-- C10 witness: `"429 quota exceeded"` carries the RPM indicator `429`
and the quota indicator `quota exceeded`. -/
theorem quota_takes_precedence_witness :
    handle_api_error (initKeyManager "A" ["B"]) "429 quota exceeded" "A" "2024-01-01"
      = ("quota_exhausted",
         mark_key_quota_exhausted (initKeyManager "A" ["B"]) "A" "2024-01-01") ∧
    is_rate_limit_error "429 quota exceeded" = false :=
  quota_takes_precedence (initKeyManager "A" ["B"]) "429 quota exceeded" "A" "2024-01-01"
    (by decide) (by decide)

/-! ## C5: totality and result shape of `parse_llm_yaml_to_dict` -/

/-- C5 counterexample: on the empty string the function returns `None`
(the result of `yaml.safe_load("")`), which is not a mapping, refuting
"always yields a mapping". -/
theorem parse_llm_empty_returns_none :
    parse_llm_yaml_to_dict "" = Yaml.null ∧
    isYamlDict (parse_llm_yaml_to_dict "") = false :=
  ⟨rfl, rfl⟩

/-- C5 amended: `parse_llm_yaml_to_dict` is total — it never raises — but
on success it returns whatever value the YAML parse produced (which need
not be a mapping: `None` for empty input, a plain string for prose); only
on a YAML parse *error* is the empty mapping substituted. -/
theorem parse_llm_yaml_total (s : String) :
    (∃ v, safe_load (clean_yaml_from_llm s) = .ok v ∧ parse_llm_yaml_to_dict s = v) ∨
    (safe_load (clean_yaml_from_llm s)).isOk = false ∧ parse_llm_yaml_to_dict s = .dict [] := by
  cases h : safe_load (clean_yaml_from_llm s) with
  | ok v =>
    left
    exact ⟨v, rfl, by unfold parse_llm_yaml_to_dict; rw [h]⟩
  | error e =>
    right
    refine ⟨rfl, ?_⟩
    unfold parse_llm_yaml_to_dict
    rw [h]

/-! ## C8: `send_prompt` on double failure returns an error string -/

/-- C8 counterexample: with a failing primary and failing fallback (here:
no key manager, every call erroring), `send_prompt` returns a *normal
string result* embedding both causes — it does not raise. -/
theorem send_prompt_double_failure_returns :
    send_prompt
      (handle_llm_call_with_key_management (fun _ => .error "boom") "2024-01-01" 3 none (some "K") 5)
      (handle_llm_call_with_key_management (fun _ => .error "bust") "2024-01-01" 3 none (some "K") 5)
      true
      = .ok "[LLM Error: Primary failed (boom), Fallback failed (bust)]" ∧
    (send_prompt
      (handle_llm_call_with_key_management (fun _ => .error "boom") "2024-01-01" 3 none (some "K") 5)
      (handle_llm_call_with_key_management (fun _ => .error "bust") "2024-01-01" 3 none (some "K") 5)
      true).isOk = true :=
  ⟨rfl, rfl⟩

/-- C8 amended: when the primary invocation and the single fallback
invocation both fail, `send_prompt` catches both exceptions and returns
the string `"[LLM Error: Primary failed (e), Fallback failed (f)]"`
as its normal result. -/
theorem send_prompt_embeds_both_failures (p f : Except String String)
    (e1 e2 : String) (hp : p = .error e1) (hf : f = .error e2) :
    send_prompt p f true
      = .ok ("[LLM Error: Primary failed (" ++ e1 ++ "), Fallback failed (" ++ e2 ++ ")]") ∧
    (send_prompt p f true).isOk = true := by
  subst hp hf
  exact ⟨rfl, rfl⟩

/-- C8 witness. -/
theorem send_prompt_embeds_both_failures_witness :
    send_prompt (.error "x") (.error "y") true
      = .ok ("[LLM Error: Primary failed (" ++ "x" ++ "), Fallback failed (" ++ "y" ++ ")]") ∧
    (send_prompt (.error "x") (.error "y") true).isOk = true :=
  send_prompt_embeds_both_failures (.error "x") (.error "y") "x" "y" rfl rfl

/-! ## C4: validation-phase handling of unparseable validator output -/

/-- An input document fixture with the fields the phases read. -/
def c4Ctx : PipeCtx :=
  initContext [("sections", .list []), ("profile", .dict [("description", .str "old")])]
    "jd" "exp"

/-- Oracle whose validator responses are the empty flow mapping. -/
def c4EmptyOracle : PhaseOracle :=
  ⟨"kw", "sm", "x", "bp", fun _ => "x", fun _ => "\x7b\x7d", fun _ => "x", "x"⟩

/-- Oracle whose validator responses are unfenced prose (parsing to a
plain string, not a mapping). -/
def c4ProseOracle : PhaseOracle :=
  ⟨"kw", "sm", "x", "bp", fun _ => "x", fun _ => "just some prose", fun _ => "x", "x"⟩

/-- C4 counterexample: a validator response parsing to an *empty mapping*
does not raise: the phase proceeds, defaults the dishonesty score to `0`,
and declares the document valid. -/
theorem validation_empty_mapping_no_raise :
    (validationNode 5 c4EmptyOracle c4Ctx).isOk = true ∧
    (validationNode 5 c4EmptyOracle c4Ctx).map
        (fun c => (c.is_valid, c.dishonesty_score, c.validation_attempts))
      = .ok (some true, some (.int 0), 1) :=
  ⟨rfl, rfl⟩

/-- The shapes of parsed validator output on which the validation phase
cannot proceed: not a mapping at all, or a `VALIDATION_RESULTS` entry
that is present but not a mapping. -/
def validationParseBroken (v : Yaml) : Prop :=
  match v with
  | .dict kvs =>
    match dget kvs "VALIDATION_RESULTS" with
    | some w => isYamlDict w = false
    | none => False
  | _ => True

/-- Shape characterization of the `.get` chain of the validation phase:
it fails exactly when the parsed value is not a mapping or its
`VALIDATION_RESULTS` entry is present but not a mapping. -/
theorem validationScore_error_iff (v : Yaml) :
    (validationScore v).isOk = false ↔ validationParseBroken v := by
  unfold validationParseBroken
  cases v with
  | dict kvs =>
    cases hv : dget kvs "VALIDATION_RESULTS" with
    | none => simp [validationScore, pyGetD, hv, dget, Except.isOk, Except.toBool]
    | some w =>
      cases w <;>
        simp [validationScore, pyGetD, hv, dget, isYamlDict, Except.isOk, Except.toBool]
  | null => simp [validationScore, pyGetD, Except.isOk, Except.toBool]
  | bool b => simp [validationScore, pyGetD, Except.isOk, Except.toBool]
  | int n => simp [validationScore, pyGetD, Except.isOk, Except.toBool]
  | str s => simp [validationScore, pyGetD, Except.isOk, Except.toBool]
  | list xs => simp [validationScore, pyGetD, Except.isOk, Except.toBool]

/-- The validation node raises `PipelineContextApplyError` exactly when
its `.get` chain on the parsed validator response fails. -/
theorem validationNode_error_iff (N : Nat) (oracle : PhaseOracle) (ctx : PipeCtx) :
    validationNode N oracle ctx = .error .applyError ↔
      (validationScore (parse_llm_yaml_to_dict (oracle.validator ctx.validation_attempts))).isOk
        = false := by
  unfold validationNode
  cases h : validationScore (parse_llm_yaml_to_dict (oracle.validator ctx.validation_attempts)) with
  | ok s => simp [Except.isOk, Except.toBool]
  | error e => simp [Except.isOk, Except.toBool]

/-- C4 amended: the Validation phase raises `PipelineContextApplyError`
exactly when the parsed response is not a mapping, or its
`VALIDATION_RESULTS` entry is present but not a mapping; a response that
parses to a mapping with no usable keys — in particular the empty
mapping — is *not* an error: the score defaults to `0` and `is_valid`
becomes `True`. -/
theorem validationNode_raises_iff (N : Nat) (oracle : PhaseOracle) (ctx : PipeCtx)
    (v : Yaml)
    (hp : parse_llm_yaml_to_dict (oracle.validator ctx.validation_attempts) = v) :
    (validationNode N oracle ctx = .error .applyError ↔ validationParseBroken v) ∧
    (v = .dict [] →
      validationNode N oracle ctx
        = .ok { ctx with validation_attempts := ctx.validation_attempts + 1,
                         is_valid := some true, dishonesty_score := some (.int 0) }) := by
  constructor
  · rw [validationNode_error_iff, hp]
    exact validationScore_error_iff v
  · intro he
    subst he
    unfold validationNode
    rw [hp]
    simp [validationScore, pyGetD, dget, scoreIsValid]

/-- C4 witness: prose raises, the empty mapping proceeds. -/
theorem validationNode_raises_iff_witness :
    validationNode 5 c4ProseOracle c4Ctx = .error .applyError ∧
    validationNode 5 c4EmptyOracle c4Ctx
      = .ok { c4Ctx with validation_attempts := 1,
                         is_valid := some true, dishonesty_score := some (.int 0) } :=
  ⟨(validationNode_raises_iff 5 c4ProseOracle c4Ctx (.str "just some prose") rfl).1.mpr
      trivial,
   (validationNode_raises_iff 5 c4EmptyOracle c4Ctx (.dict []) rfl).2 rfl⟩

/-! ## C7: key rotation scenario with slots A, B, C -/

/-- `pyStrLt` is irreflexive: a date is never before itself. -/
theorem pyStrLtL_irrefl (l : List Char) : pyStrLtL l l = false := by
  induction l with
  | nil => rfl
  | cons c cs ih => simp [pyStrLtL, ih]

/-- Manager state after marking slot `A` quota-exhausted on day `d0`. -/
def c7m1 (d0 : String) : KeyManager :=
  mark_key_quota_exhausted (initKeyManager "A" ["B", "C"]) "A" d0

/-- First rotation call (still on day `d0`). -/
def c7s1 (d0 : String) : Option String × KeyManager := get_next_key_env d0 (c7m1 d0)

/-- Then slot `B` fails for the session. -/
def c7m2 (d0 : String) : KeyManager := mark_key_failed (c7s1 d0).2 "B"

/-- Second rotation call (day `d0`). -/
def c7s2 (d0 : String) : Option String × KeyManager := get_next_key_env d0 (c7m2 d0)

/-- Third rotation call after the provider-local date has advanced to `d1`. -/
def c7s3 (d0 d1 : String) : Option String × KeyManager :=
  get_next_key_env d1 (c7s2 d0).2

/-- Fourth rotation call after slot `C` has also failed. -/
def c7s4 (d0 d1 : String) : Option String × KeyManager :=
  get_next_key_env d1 (mark_key_failed (c7s3 d0 d1).2 "C")

/-- C7 counterexample: with `A` quota-exhausted and `B` failed the second
call returns `C`; but after the date advances past `A`'s exhaustion date
the next call *still returns `C`* (the current slot, which is usable) —
not `A` as the claim states. -/
theorem rotation_keeps_current_after_rollover :
    (c7s2 "2024-01-01").1 = some "C" ∧
    (c7s3 "2024-01-01" "2024-01-02").1 = some "C" ∧
    ((c7s3 "2024-01-01" "2024-01-02").1 = some "A") = False := by
  refine ⟨rfl, rfl, ?_⟩
  decide

/-- C7 amended: after marking `A` quota-exhausted (day `d0`) and `B`
failed, rotation returns `C`; once the provider-local date advances past
`A`'s exhaustion date, `A`'s quota entry is cleared — so `A` is available
again — but `get_next_key_env` keeps returning the still-usable current
slot `C`; `A` is returned (and `B` never) as soon as the current slot
becomes unusable. -/
theorem rotation_after_rollover (d0 d1 : String) (hlt : pyStrLt d0 d1 = true) :
    (c7s2 d0).1 = some "C" ∧
    (c7s3 d0 d1).1 = some "C" ∧
    is_key_available (c7s3 d0 d1).2 "A" = true ∧
    (c7s4 d0 d1).1 = some "A" := by
  have hne : d0 ≠ d1 := by
    intro he
    rw [he] at hlt
    simp [pyStrLt, pyStrLtL_irrefl] at hlt
  have h1 : c7s1 d0 = (some "B", ⟨"A", ["B", "C"], "B", [], [("A", d0)], some d0⟩) := by
    unfold c7s1 c7m1 get_next_key_env ensureQuotaResetChecked resetExpiredQuotas
      mark_key_quota_exhausted initKeyManager is_key_available qmem qset
    simp [pyStrLt, pyStrLtL_irrefl]
  have h2 : c7s2 d0 = (some "C", ⟨"A", ["B", "C"], "C", ["B"], [("A", d0)], some d0⟩) := by
    unfold c7s2 c7m2 get_next_key_env ensureQuotaResetChecked mark_key_failed
    rw [h1]
    simp [is_key_available, qmem]
  have hlt2 : pyStrLtL d0.data d1.data = true := hlt
  have h3 : c7s3 d0 d1 = (some "C", ⟨"A", ["B", "C"], "C", ["B"], [], some d1⟩) := by
    unfold c7s3 get_next_key_env ensureQuotaResetChecked resetExpiredQuotas
    rw [h2]
    simp [hne, hlt2, is_key_available, qmem, pyStrLt]
  have h4 : c7s4 d0 d1 = (some "A", ⟨"A", ["B", "C"], "A", ["B", "C"], [], some d1⟩) := by
    unfold c7s4 get_next_key_env ensureQuotaResetChecked mark_key_failed
    rw [h3]
    simp [is_key_available, qmem]
  refine ⟨?_, ?_, ?_, ?_⟩
  · rw [h2]
  · rw [h3]
  · rw [h3]; rfl
  · rw [h4]

/-- C7 witness for the amended theorem at concrete dates. -/
theorem rotation_after_rollover_witness :
    (c7s2 "2024-03-01").1 = some "C" ∧
    (c7s3 "2024-03-01" "2024-03-02").1 = some "C" ∧
    is_key_available (c7s3 "2024-03-01" "2024-03-02").2 "A" = true ∧
    (c7s4 "2024-03-01" "2024-03-02").1 = some "A" :=
  rotation_after_rollover "2024-03-01" "2024-03-02" (by decide)

/-! ## C1: the frame property of filtered selective updates -/

/-- Setting one key leaves every other key's binding unchanged. -/
theorem dget_dset_ne (d : Ydict) (k k' : String) (v : Yaml) (h : k ≠ k') :
    dget (dset d k v) k' = dget d k' := by
  induction d with
  | nil => simp [dset, dget, h]
  | cons kv rest ih =>
    obtain ⟨k1, v1⟩ := kv
    by_cases hk : k1 = k
    · subst hk
      simp [dset, dget, h]
    · simp only [dset, dget, if_neg hk]
      by_cases hk2 : k1 = k'
      · simp [hk2]
      · simp [hk2, ih]

/-- `d[section][field] = v` leaves every key other than `section`
unchanged. -/
theorem setField_frame (d : Ydict) (sec fld : String) (v : Yaml) (r : Ydict)
    (h : setField d sec fld v = .ok r) (k : String) (hk : sec ≠ k) :
    dget r k = dget d k := by
  unfold setField at h
  split at h
  · injection h with h1
    subst h1
    exact dget_dset_ne d sec k _ hk
  · exact absurd h (by simp)
  · exact absurd h (by simp)

/-- One iteration of the update loop only ever writes to the top-level
key its path addresses. -/
theorem applyOnePath_frame (resume : Ydict) (updates : Yaml) (path : String)
    (r' : Ydict) (h : applyOnePath resume updates path = .ok r') (k : String)
    (hk : baseSection path ≠ k) :
    dget r' k = dget resume k := by
  unfold applyOnePath at h
  unfold baseSection at hk
  split at h
  · -- bracketed path
    rename_i sec fil heq
    rw [heq] at hk
    split at h
    · exact absurd h (by simp)
    · split at h
      · injection h with h1
        subst h1
        rfl
      · split at h
        · split at h
          · exact absurd h (by simp)
          · injection h with h1
            subst h1
            by_cases hd : dmem resume sec
            · simp only [if_pos hd]
              exact dget_dset_ne resume sec k _ hk
            · simp only [if_neg hd]
        · injection h with h1
          subst h1
          rfl
  · -- dotted path
    rename_i sec fld heq
    rw [heq] at hk
    split at h
    · exact absurd h (by simp)
    · split at h
      · injection h with h1
        subst h1
        rfl
      · split at h
        · exact absurd h (by simp)
        · split at h
          · split at h
            · have h2 := setField_frame _ sec _ _ _ h k hk
              rw [h2]
              by_cases hd : dmem resume sec
              · simp only [if_pos hd]
              · simp only [if_neg hd]
                exact dget_dset_ne resume sec k _ hk
            · injection h with h1
              subst h1
              by_cases hd : dmem resume sec
              · simp only [if_pos hd]
              · simp only [if_neg hd]
                exact dget_dset_ne resume sec k _ hk
          · injection h with h1
            subst h1
            rfl
  · -- top-level path
    rename_i sec heq
    rw [heq] at hk
    split at h
    · exact absurd h (by simp)
    · split at h
      · injection h with h1
        subst h1
        rfl
      · split at h
        · exact absurd h (by simp)
        · injection h with h1
          subst h1
          exact dget_dset_ne resume sec k _ hk

/-- The whole update pass only ever writes to the top-level keys its
paths address. -/
theorem apply_selective_frame (paths : List String) :
    ∀ (resume : Ydict) (updates : Yaml) (r' : Ydict),
      apply_selective_resume_updates resume updates paths = .ok r' →
      ∀ k : String, (∀ p ∈ paths, baseSection p ≠ k) →
        dget r' k = dget resume k := by
  induction paths with
  | nil =>
    intro resume updates r' h k hk
    unfold apply_selective_resume_updates at h
    injection h with h1
    subst h1
    rfl
  | cons p rest ih =>
    intro resume updates r' h k hk
    unfold apply_selective_resume_updates at h
    cases hop : applyOnePath resume updates p with
    | error e => rw [hop] at h; exact absurd h (by simp)
    | ok r1 =>
      rw [hop] at h
      have h1 := ih r1 updates r' h k (fun q hq => hk q (List.mem_cons_of_mem p hq))
      rw [h1]
      exact applyOnePath_frame resume updates p r1 hop k (hk p (List.mem_cons_self p rest))

/-- C1: applying updates filtered by `extract_allowed_updates_only` with
the same allowed paths mutates only top-level document keys addressed by
some allowed path; every key of the document outside the allowed paths
holds exactly the same value afterwards. -/
theorem apply_filtered_updates_frame (D : Ydict) (U : Yaml) (P : List String)
    (U2 D2 : Ydict)
    (_hfilter : extract_allowed_updates_only U P = .ok U2)
    (happly : apply_selective_resume_updates D (.dict U2) P = .ok D2)
    (k : String) (hk : ∀ p ∈ P, baseSection p ≠ k) :
    dget D2 k = dget D k :=
  apply_selective_frame P D (.dict U2) D2 happly k hk

/-- C1 witness fixtures: a two-key document, updates touching both keys,
and allowed paths of all three kinds, none addressing `z`. -/
def c1D : Ydict := [("a", .int 1), ("z", .int 9)]

/-- C1 witness update map (also tries to change `z`). -/
def c1U : Yaml := .dict [("a", .int 2), ("z", .int 5)]

/-- C1 witness allowed paths. -/
def c1P : List String := ["a", "b.c", "d[x]"]

/-- C1 witness: the filtered update pass changes `a` but leaves `z`
bit-for-bit unchanged. -/
theorem apply_filtered_updates_frame_witness :
    extract_allowed_updates_only c1U c1P = .ok [("a", .int 2)] ∧
    apply_selective_resume_updates c1D (.dict [("a", .int 2)]) c1P
      = .ok [("a", .int 2), ("z", .int 9)] ∧
    dget [("a", Yaml.int 2), ("z", Yaml.int 9)] "z" = dget c1D "z" :=
  ⟨rfl, rfl,
   apply_filtered_updates_frame c1D c1U c1P [("a", .int 2)]
     [("a", .int 2), ("z", .int 9)] rfl rfl "z" (by decide)⟩

/-! ## C6: bracketed-path updates -/

/-- C6 counterexample fixtures: a list whose two items both contain the
filter token `x`. -/
def c6Items : List Yaml := [.dict [("n", .str "x1")], .dict [("n", .str "x2")]]

/-- C6 counterexample document. -/
def c6D : Ydict := [("a", .list c6Items)]

/-- C6 update dict: one entry matching the filter. -/
def c6Upd : Ydict := [("n", .str "xx"), ("m", .str "z")]

/-- C6 counterexample update map with one update matching the filter. -/
def c6U : Ydict := [("a", .list [.dict c6Upd])]

/-- Concrete joined-values facts (the printer is compiled by
well-founded recursion, so these are established by its equations). -/
theorem c6_joined_upd : joinVals c6Upd = "xx z" := by
  simp [c6Upd, joinVals, pyStr]

/-- Joined values of the first fixture item. -/
theorem c6_joined_x1 : joinVals [("n", Yaml.str "x1")] = "x1" := by
  simp [joinVals, pyStr]

/-- Joined values of the second fixture item. -/
theorem c6_joined_x2 : joinVals [("n", Yaml.str "x2")] = "x2" := by
  simp [joinVals, pyStr]

/-- The single update of the fixture is the first (and only) match. -/
theorem c6_first_match : firstMatchingUpdateL [.dict c6Upd] "x" = some c6Upd := by
  simp only [firstMatchingUpdateL, c6_joined_upd]
  rfl

/-- The per-item effect of a bracketed-path update: a dict item whose
joined values contain the filter is shallow-merged with the update `u`;
everything else is returned unchanged. -/
def mergeMatching (fil : String) (u : Ydict) (it : Yaml) : Yaml :=
  match it with
  | .dict d => if pyInStr fil (joinVals d) then .dict (pyDictUpdate d u) else .dict d
  | other => other

/-- Evaluating the item loop of the bracketed branch: every item is
mapped by `mergeMatching` with the first matching update. -/
theorem bracketApplyItems_map (fil : String) (us : List Yaml) (u : Ydict)
    (hfirst : firstMatchingUpdateL us fil = some u) :
    ∀ items : List Yaml,
      bracketApplyItems items (.list us) fil
        = .ok (items.map (mergeMatching fil u)) := by
  intro items
  induction items with
  | nil => rfl
  | cons it rest ih =>
    cases it with
    | dict d =>
      by_cases hm : pyInStr fil (joinVals d)
      · simp [bracketApplyItems, firstMatchingUpdate, hfirst, hm, ih, mergeMatching]
      · simp [bracketApplyItems, hm, ih, mergeMatching]
    | null => simp [bracketApplyItems, ih, mergeMatching]
    | bool b => simp [bracketApplyItems, ih, mergeMatching]
    | int n => simp [bracketApplyItems, ih, mergeMatching]
    | str s => simp [bracketApplyItems, ih, mergeMatching]
    | list xs => simp [bracketApplyItems, ih, mergeMatching]

/-- C6 counterexample: with allowed path `a[x]` and two matching items,
`apply_selective_resume_updates` merges the update into *both* items, so
more than one list item is mutated — the second item does not keep its
old value. -/
theorem bracket_update_touches_every_match :
    apply_selective_resume_updates c6D (.dict c6U) ["a[x]"]
      = .ok [("a", .list [.dict [("n", .str "xx"), ("m", .str "z")],
                          .dict [("n", .str "xx"), ("m", .str "z")]])] ∧
    Yaml.dict [("n", .str "xx"), ("m", .str "z")] ≠ Yaml.dict [("n", .str "x2")] := by
  have hmap : c6Items.map (mergeMatching "x" c6Upd)
      = [.dict [("n", .str "xx"), ("m", .str "z")],
         .dict [("n", .str "xx"), ("m", .str "z")]] := by
    simp only [c6Items, List.map, mergeMatching, c6_joined_x1, c6_joined_x2]
    rfl
  have hba := bracketApplyItems_map "x" [.dict c6Upd] c6Upd c6_first_match c6Items
  rw [hmap] at hba
  constructor
  · calc apply_selective_resume_updates c6D (.dict c6U) ["a[x]"]
        = (match (match bracketApplyItems c6Items (.list [.dict c6Upd]) "x" with
                  | .error e => (.error e : Except PyErr Ydict)
                  | .ok items1 =>
                    .ok (if dmem c6D "a" then dset c6D "a" (.list items1) else c6D)) with
           | .error e => .error e
           | .ok r1 => apply_selective_resume_updates r1 (.dict c6U) []) := rfl
      _ = _ := by rw [hba]; rfl
  · simp

/-- C6 amended: for a bracketed allowed path `a[x]` over a list-valued
document key with a non-empty update list, the first update matching the
filter is shallow-merged into *every* dict item whose joined values
contain the filter; every non-matching item (and every non-dict item) is
left unchanged. -/
theorem bracket_path_merge (D U : Ydict) (p sec fil : String) (items us : List Yaml)
    (u : Ydict)
    (hp : parsePath p = .bracketed sec fil)
    (hd : dget D sec = some (.list items))
    (hu : dget U sec = some (.list us))
    (hne : us ≠ [])
    (hfirst : firstMatchingUpdateL us fil = some u) :
    apply_selective_resume_updates D (.dict U) [p]
      = .ok (dset D sec (.list (items.map (mergeMatching fil u)))) ∧
    (∀ d : Ydict, pyInStr fil (joinVals d) = false →
      mergeMatching fil u (.dict d) = .dict d) ∧
    (∀ d : Ydict, pyInStr fil (joinVals d) = true →
      mergeMatching fil u (.dict d) = .dict (pyDictUpdate d u)) := by
  refine ⟨?_, ?_, ?_⟩
  · unfold apply_selective_resume_updates applyOnePath
    rw [hp]
    simp only [pyGetD, hu, Option.getD_some]
    have htr : pyTruthy (.list us) = true := by simp [pyTruthy, hne]
    rw [htr]
    simp only [Bool.not_true, Bool.false_eq_true, if_false]
    rw [hd]
    simp only [Option.getD_some]
    rw [bracketApplyItems_map fil us u hfirst items]
    have hm : dmem D sec = true := by simp [dmem, hd]
    simp [hm, apply_selective_resume_updates]
  · intro d hno
    simp [mergeMatching, hno]
  · intro d hyes
    simp [mergeMatching, hyes]

/-- C6 witness: the amended theorem applied to the two-match fixture. -/
theorem bracket_path_merge_witness :
    apply_selective_resume_updates c6D (.dict c6U) ["a[x]"]
      = .ok (dset c6D "a" (.list (c6Items.map (mergeMatching "x" c6Upd)))) ∧
    (∀ d : Ydict, pyInStr "x" (joinVals d) = false →
      mergeMatching "x" c6Upd (.dict d) = .dict d) ∧
    (∀ d : Ydict, pyInStr "x" (joinVals d) = true →
      mergeMatching "x" c6Upd (.dict d) = .dict (pyDictUpdate d c6Upd)) :=
  bracket_path_merge c6D c6U "a[x]" "a" "x" c6Items
    [.dict c6Upd] c6Upd rfl rfl rfl (by simp) c6_first_match

/-! ## Pipeline node and loop lemmas (for C2, C3, C9) -/

/-- What a successful `LoadInputsNode` run does to the context. -/
theorem loadInputsNode_ok (ctx c2 : PipeCtx) (h : loadInputsNode ctx = .ok c2) :
    c2 = { ctx with edited_resume := ctx.input_resume,
                    edited_resume_versions := ctx.edited_resume_versions ++ [ctx.input_resume] } := by
  unfold loadInputsNode at h
  injection h with h1
  exact h1.symm


/-- Fields of the context after a successful `PlanningPhaseNode` run:
the counters, flags and version history are untouched (planning appends
no snapshot), and the three planning outputs are stored. -/
theorem planningNode_ok (oracle : PhaseOracle) (ctx c2 : PipeCtx)
    (h : planningNode oracle ctx = .ok c2) :
    c2.input_resume = ctx.input_resume ∧
    c2.validation_attempts = ctx.validation_attempts ∧
    c2.is_valid = ctx.is_valid ∧
    c2.dishonesty_score = ctx.dishonesty_score ∧
    c2.edited_resume_versions = ctx.edited_resume_versions ∧
    c2.jd_analysis_output = some oracle.jd_analysis ∧
    c2.profile_planning_output = some oracle.profile_planning ∧
    c2.bullet_points_output = some oracle.bullet_points := by
  unfold planningNode at h
  split at h
  · exact absurd h (by simp)
  · split at h
    · exact absurd h (by simp)
    · injection h with h1
      subst h1
      simp


/-- Fields after a successful `OptimizationPhaseNode` run: counters and
flags untouched, exactly one version snapshot appended. -/
theorem optimizationNode_ok (paths : List String) (oracle : PhaseOracle) (ctx c2 : PipeCtx)
    (h : optimizationNode paths oracle ctx = .ok c2) :
    c2.input_resume = ctx.input_resume ∧
    c2.validation_attempts = ctx.validation_attempts ∧
    c2.is_valid = ctx.is_valid ∧
    c2.dishonesty_score = ctx.dishonesty_score ∧
    c2.edited_resume_versions = ctx.edited_resume_versions ++ [c2.edited_resume] ∧
    c2.jd_analysis_output = ctx.jd_analysis_output ∧
    c2.profile_planning_output = ctx.profile_planning_output ∧
    c2.bullet_points_output = ctx.bullet_points_output := by
  unfold optimizationNode at h
  split at h
  · split at h
    · exact absurd h (by simp)
    · split at h
      · exact absurd h (by simp)
      · injection h with h1
        subst h1
        simp
  · exact absurd h (by simp)


/-- Fields after a successful `ValidationPhaseNode` run: the documents
and version history are untouched and `validation_attempts` increases by
exactly one. -/
theorem validationNode_ok (N : Nat) (oracle : PhaseOracle) (ctx c2 : PipeCtx)
    (h : validationNode N oracle ctx = .ok c2) :
    c2.input_resume = ctx.input_resume ∧
    c2.edited_resume = ctx.edited_resume ∧
    c2.edited_resume_versions = ctx.edited_resume_versions ∧
    c2.validation_attempts = ctx.validation_attempts + 1 ∧
    c2.jd_analysis_output = ctx.jd_analysis_output ∧
    c2.profile_planning_output = ctx.profile_planning_output ∧
    c2.bullet_points_output = ctx.bullet_points_output := by
  unfold validationNode at h
  split at h
  · exact absurd h (by simp)
  · injection h with h1
    subst h1
    split
    · simp
    · simp


/-- Fields after a successful `RefinementPhaseNode` run: the attempt
counter is untouched, exactly one version snapshot is appended, and
`is_valid` is only overwritten at the retry ceiling. -/
theorem refinementNode_ok (N : Nat) (paths : List String) (oracle : PhaseOracle)
    (ctx c2 : PipeCtx) (h : refinementNode N paths oracle ctx = .ok c2) :
    c2.input_resume = ctx.input_resume ∧
    c2.validation_attempts = ctx.validation_attempts ∧
    c2.dishonesty_score = ctx.dishonesty_score ∧
    c2.edited_resume_versions = ctx.edited_resume_versions ++ [c2.edited_resume] ∧
    c2.jd_analysis_output = ctx.jd_analysis_output ∧
    c2.profile_planning_output = ctx.profile_planning_output ∧
    c2.bullet_points_output = ctx.bullet_points_output ∧
    (ctx.validation_attempts < N → c2.is_valid = ctx.is_valid) := by
  unfold refinementNode at h
  split at h
  · exact absurd h (by simp)
  · injection h with h1
    subst h1
    split
    · rename_i hge
      refine ⟨rfl, rfl, rfl, rfl, rfl, rfl, rfl, ?_⟩
      intro hlt
      omega
    · simp


/-- Fields after a successful `FormattingPhaseNode` run: documents,
version history, counters and flags are all untouched. -/
theorem formattingNode_ok (oracle : PhaseOracle) (ctx c2 : PipeCtx)
    (h : formattingNode oracle ctx = .ok c2) :
    c2.input_resume = ctx.input_resume ∧
    c2.edited_resume = ctx.edited_resume ∧
    c2.edited_resume_versions = ctx.edited_resume_versions ∧
    c2.validation_attempts = ctx.validation_attempts ∧
    c2.is_valid = ctx.is_valid ∧
    c2.dishonesty_score = ctx.dishonesty_score := by
  unfold formattingNode at h
  split at h
  · exact absurd h (by simp)
  · split at h
    · split at h
      · exact absurd h (by simp)
      · injection h with h1
        subst h1
        simp
    · exact absurd h (by simp)


/-- What `OutputCompileNode` does. -/
theorem outputCompileNode_ok (ctx c2 : PipeCtx) (h : outputCompileNode ctx = .ok c2) :
    c2 = { ctx with output_done := true } := by
  unfold outputCompileNode at h
  injection h with h1
  exact h1.symm


/-- The verdict of a successful validation pass whose parsed response
carries the integer dishonesty score `s`. -/
theorem validationNode_score_inv (N : Nat) (oracle : PhaseOracle) (ctx c2 : PipeCtx)
    (s : Int)
    (h : validationNode N oracle ctx = .ok c2)
    (hs : validationScore (parse_llm_yaml_to_dict (oracle.validator ctx.validation_attempts))
            = .ok (.int s)) :
    c2.dishonesty_score = some (.int s) ∧
    (20 < s → ctx.validation_attempts + 1 < N → c2.is_valid = some false) ∧
    (20 < s → N ≤ ctx.validation_attempts + 1 → c2.is_valid = some true) ∧
    (s ≤ 20 → c2.is_valid = some true) := by
  unfold validationNode at h
  rw [hs] at h
  injection h with h1
  subst h1
  split
  · rename_i hc
    refine ⟨rfl, ?_, ?_, ?_⟩
    · intro _ hlt
      omega
    · intro _ _
      rfl
    · intro hle
      have hsv : scoreIsValid (.int s) = true := by simp [scoreIsValid]; omega
      exact absurd hc (by rw [hsv]; simp)
  · rename_i hc
    refine ⟨rfl, ?_, ?_, ?_⟩
    · intro hgt _
      have : scoreIsValid (.int s) = false := by simp [scoreIsValid]; omega
      rw [this]
    · intro hgt hge
      have hsv : scoreIsValid (.int s) = false := by simp [scoreIsValid]; omega
      exact absurd ⟨hge, by rw [hsv]; rfl⟩ hc
    · intro hle
      have : scoreIsValid (.int s) = true := by simp [scoreIsValid]; omega
      rw [this]


/-- The conditional edge routes to refinement when invalid. -/
theorem validation_router_false (c : PipeCtx) (h : c.is_valid = some false) :
    validation_router c = false := by
  simp [validation_router, h]


/-- The conditional edge routes to formatting when valid. -/
theorem validation_router_true (c : PipeCtx) (h : c.is_valid = some true) :
    validation_router c = true := by
  simp [validation_router, h]


/-- The optimization/validation/refinement cycle never changes
`input_resume`. -/
theorem optValLoop_input (N : Nat) (paths : List String) (oracle : PhaseOracle) :
    ∀ (fuel : Nat) (ctx ctxF : PipeCtx),
      optValLoop N paths oracle fuel ctx = .ok ctxF →
      ctxF.input_resume = ctx.input_resume := by
  intro fuel
  induction fuel with
  | zero => intro ctx ctxF h; exact absurd h (by simp [optValLoop])
  | succ fuel ih =>
    intro ctx ctxF h
    unfold optValLoop at h
    cases hopt : optimizationNode paths oracle ctx with
    | error e => rw [hopt] at h; exact absurd h (by simp)
    | ok c1 =>
      rw [hopt] at h
      dsimp only at h
      obtain ⟨hi1, _, _, _, _, _, _, _⟩ := optimizationNode_ok paths oracle ctx c1 hopt
      cases hv : validationNode N oracle c1 with
      | error e => rw [hv] at h; exact absurd h (by simp)
      | ok c2 =>
        rw [hv] at h
        dsimp only at h
        obtain ⟨hi2, _, _, _, _, _, _⟩ := validationNode_ok N oracle c1 c2 hv
        by_cases hr : validation_router c2 = true
        · rw [hr] at h
          simp at h
          subst h
          rw [hi2, hi1]
        · rw [Bool.not_eq_true] at hr
          rw [hr] at h
          simp at h
          cases href : refinementNode N paths oracle c2 with
          | error e => rw [href] at h; exact absurd h (by simp)
          | ok c3 =>
            rw [href] at h
            dsimp only at h
            obtain ⟨hi3, _, _, _, _, _, _, _⟩ :=
              refinementNode_ok N paths oracle c2 c3 href
            rw [ih c3 ctxF h, hi3, hi2, hi1]


/-- The cycle under an always-invalid validator: starting below the
ceiling `N` it performs validations up to exactly attempt `N`, exits with
`is_valid` forced true and the score of the last (`N`-th) pass, having
appended two snapshots per full round and one for the final
optimization. -/
theorem optValLoop_all_invalid (N : Nat) (paths : List String) (oracle : PhaseOracle)
    (hinv : ∀ i, i < N → ∃ s : Int,
      validationScore (parse_llm_yaml_to_dict (oracle.validator i)) = .ok (.int s) ∧ 20 < s) :
    ∀ (fuel : Nat) (ctx ctxF : PipeCtx), ctx.validation_attempts < N →
      optValLoop N paths oracle fuel ctx = .ok ctxF →
      ctxF.validation_attempts = N ∧ ctxF.is_valid = some true ∧
      (∃ s : Int, 20 < s ∧
        validationScore (parse_llm_yaml_to_dict (oracle.validator (N - 1))) = .ok (.int s) ∧
        ctxF.dishonesty_score = some (.int s)) ∧
      ctxF.edited_resume_versions.length
        = ctx.edited_resume_versions.length + 2 * (N - ctx.validation_attempts) - 1 := by
  intro fuel
  induction fuel with
  | zero => intro ctx ctxF _ h; exact absurd h (by simp [optValLoop])
  | succ fuel ih =>
    intro ctx ctxF ha h
    unfold optValLoop at h
    cases hopt : optimizationNode paths oracle ctx with
    | error e => rw [hopt] at h; exact absurd h (by simp)
    | ok c1 =>
      rw [hopt] at h
      dsimp only at h
      obtain ⟨hi1, hva1, hiv1, hds1, hver1, _, _, _⟩ :=
        optimizationNode_ok paths oracle ctx c1 hopt
      obtain ⟨s, hs, hgt⟩ := hinv c1.validation_attempts (by omega)
      cases hv : validationNode N oracle c1 with
      | error e => rw [hv] at h; exact absurd h (by simp)
      | ok c2 =>
        rw [hv] at h
        dsimp only at h
        obtain ⟨hi2, hed2, hver2, hva2, _, _, _⟩ := validationNode_ok N oracle c1 c2 hv
        obtain ⟨hds2, hfalse, hforced, _⟩ := validationNode_score_inv N oracle c1 c2 s hv hs
        by_cases hNa : c1.validation_attempts + 1 < N
        · have hiv2 := hfalse hgt hNa
          rw [validation_router_false c2 hiv2] at h
          simp only [Bool.false_eq_true, if_false] at h
          cases href : refinementNode N paths oracle c2 with
          | error e => rw [href] at h; exact absurd h (by simp)
          | ok c3 =>
            rw [href] at h
            dsimp only at h
            obtain ⟨hi3, hva3, hds3, hver3, _, _, _, hiv3⟩ :=
              refinementNode_ok N paths oracle c2 c3 href
            obtain ⟨hf1, hf2, hf3, hf4⟩ := ih c3 ctxF (by omega) h
            refine ⟨hf1, hf2, hf3, ?_⟩
            have hl3 : c3.edited_resume_versions.length
                = c2.edited_resume_versions.length + 1 := by rw [hver3]; simp
            have hl2 : c2.edited_resume_versions.length
                = c1.edited_resume_versions.length := by rw [hver2]
            have hl1 : c1.edited_resume_versions.length
                = ctx.edited_resume_versions.length + 1 := by rw [hver1]; simp
            omega
        · have hiv2 := hforced hgt (by omega)
          rw [validation_router_true c2 hiv2] at h
          simp only [if_true] at h
          injection h with h1
          subst h1
          have hNm : c1.validation_attempts = N - 1 := by omega
          refine ⟨by omega, hiv2, ⟨s, hgt, by rw [← hNm]; exact hs, hds2⟩, ?_⟩
          have hl2 : c2.edited_resume_versions.length
              = c1.edited_resume_versions.length := by rw [hver2]
          have hl1 : c1.edited_resume_versions.length
              = ctx.edited_resume_versions.length + 1 := by rw [hver1]; simp
          omega


/-- The cycle when the first `k` validator responses are invalid and the
`(k+1)`-st (index `k`) is valid, with `k` below the ceiling: it exits
after attempt `k+1` with two snapshots per refinement round plus one. -/
theorem optValLoop_valid_at (N : Nat) (paths : List String) (oracle : PhaseOracle)
    (k : Nat) (hkN : k < N)
    (hinv : ∀ i, i < k → ∃ s : Int,
      validationScore (parse_llm_yaml_to_dict (oracle.validator i)) = .ok (.int s) ∧ 20 < s)
    (hval : ∃ s : Int,
      validationScore (parse_llm_yaml_to_dict (oracle.validator k)) = .ok (.int s) ∧ s ≤ 20) :
    ∀ (fuel : Nat) (ctx ctxF : PipeCtx), ctx.validation_attempts ≤ k →
      optValLoop N paths oracle fuel ctx = .ok ctxF →
      ctxF.validation_attempts = k + 1 ∧ ctxF.is_valid = some true ∧
      ctxF.edited_resume_versions.length
        = ctx.edited_resume_versions.length + 2 * (k - ctx.validation_attempts) + 1 := by
  intro fuel
  induction fuel with
  | zero => intro ctx ctxF _ h; exact absurd h (by simp [optValLoop])
  | succ fuel ih =>
    intro ctx ctxF ha h
    unfold optValLoop at h
    cases hopt : optimizationNode paths oracle ctx with
    | error e => rw [hopt] at h; exact absurd h (by simp)
    | ok c1 =>
      rw [hopt] at h
      dsimp only at h
      obtain ⟨hi1, hva1, hiv1, hds1, hver1, _, _, _⟩ :=
        optimizationNode_ok paths oracle ctx c1 hopt
      cases hv : validationNode N oracle c1 with
      | error e => rw [hv] at h; exact absurd h (by simp)
      | ok c2 =>
        rw [hv] at h
        dsimp only at h
        obtain ⟨hi2, hed2, hver2, hva2, _, _, _⟩ := validationNode_ok N oracle c1 c2 hv
        by_cases hk : c1.validation_attempts = k
        · -- the valid pass
          obtain ⟨s, hs, hsle⟩ := hval
          obtain ⟨hds2, _, _, htrue⟩ := validationNode_score_inv N oracle c1 c2 s hv
            (by rw [hk]; exact hs)
          have hiv2 := htrue hsle
          rw [validation_router_true c2 hiv2] at h
          simp only [if_true] at h
          injection h with h1
          subst h1
          have hl2 : c2.edited_resume_versions.length
              = c1.edited_resume_versions.length := by rw [hver2]
          have hl1 : c1.edited_resume_versions.length
              = ctx.edited_resume_versions.length + 1 := by rw [hver1]; simp
          exact ⟨by omega, hiv2, by omega⟩
        · -- an invalid pass, continue
          obtain ⟨s, hs, hgt⟩ := hinv c1.validation_attempts (by omega)
          obtain ⟨hds2, hfalse, _, _⟩ := validationNode_score_inv N oracle c1 c2 s hv hs
          have hiv2 := hfalse hgt (by omega)
          rw [validation_router_false c2 hiv2] at h
          simp only [Bool.false_eq_true, if_false] at h
          cases href : refinementNode N paths oracle c2 with
          | error e => rw [href] at h; exact absurd h (by simp)
          | ok c3 =>
            rw [href] at h
            dsimp only at h
            obtain ⟨hi3, hva3, hds3, hver3, _, _, _, hiv3⟩ :=
              refinementNode_ok N paths oracle c2 c3 href
            obtain ⟨hf1, hf2, hf3⟩ := ih c3 ctxF (by omega) h
            refine ⟨hf1, hf2, ?_⟩
            have hl3 : c3.edited_resume_versions.length
                = c2.edited_resume_versions.length + 1 := by rw [hver3]; simp
            have hl2 : c2.edited_resume_versions.length
                = c1.edited_resume_versions.length := by rw [hver2]
            have hl1 : c1.edited_resume_versions.length
                = ctx.edited_resume_versions.length + 1 := by rw [hver1]; simp
            omega


/-! ## C2, C3, C9: run-level theorems -/

/-- C3: with retry ceiling `N ≥ 1` and a validator whose every response
parses to an integer dishonesty score above 20, a completed pipeline run
performs exactly `N` validation passes (`validation_attempts = N`, one
increment per pass), ends with `is_valid` forced to `True`, and keeps in
`dishonesty_score` the actually parsed score of the last pass. -/
theorem validation_retry_ceiling (N : Nat) (paths : List String) (oracle : PhaseOracle)
    (fuel : Nat) (ctx0 ctxF : PipeCtx)
    (hN : 1 ≤ N)
    (hstart : ctx0.validation_attempts = 0)
    (hinv : ∀ i, i < N → ∃ s : Int,
      validationScore (parse_llm_yaml_to_dict (oracle.validator i)) = .ok (.int s) ∧ 20 < s)
    (hrun : runPipeline N paths oracle fuel ctx0 = .ok ctxF) :
    ctxF.validation_attempts = N ∧ ctxF.is_valid = some true ∧
    (∃ s : Int, 20 < s ∧
      validationScore (parse_llm_yaml_to_dict (oracle.validator (N - 1))) = .ok (.int s) ∧
      ctxF.dishonesty_score = some (.int s)) := by
  unfold runPipeline at hrun
  cases h1 : loadInputsNode ctx0 with
  | error e => rw [h1] at hrun; exact absurd hrun (by simp)
  | ok c1 =>
    rw [h1] at hrun
    dsimp only at hrun
    have e1 := loadInputsNode_ok ctx0 c1 h1
    have hva1 : c1.validation_attempts = ctx0.validation_attempts := by rw [e1]
    cases h2 : planningNode oracle c1 with
    | error e => rw [h2] at hrun; exact absurd hrun (by simp)
    | ok c2 =>
      rw [h2] at hrun
      dsimp only at hrun
      obtain ⟨_, hva2, _, _, _, _, _, _⟩ := planningNode_ok oracle c1 c2 h2
      cases h3 : optValLoop N paths oracle fuel c2 with
      | error e => rw [h3] at hrun; exact absurd hrun (by simp)
      | ok c3 =>
        rw [h3] at hrun
        dsimp only at hrun
        obtain ⟨hf1, hf2, hf3, _⟩ :=
          optValLoop_all_invalid N paths oracle hinv fuel c2 c3 (by omega) h3
        cases h4 : formattingNode oracle c3 with
        | error e => rw [h4] at hrun; exact absurd hrun (by simp)
        | ok c4 =>
          rw [h4] at hrun
          dsimp only at hrun
          obtain ⟨_, _, _, hva4, hiv4, hds4⟩ := formattingNode_ok oracle c3 c4 h4
          have e5 := outputCompileNode_ok c4 ctxF hrun
          have hva5 : ctxF.validation_attempts = c4.validation_attempts := by rw [e5]
          have hiv5 : ctxF.is_valid = c4.is_valid := by rw [e5]
          have hds5 : ctxF.dishonesty_score = c4.dishonesty_score := by rw [e5]
          obtain ⟨s, hsg, hssc, hsds⟩ := hf3
          exact ⟨by omega, by rw [hiv5, hiv4, hf2], ⟨s, hsg, hssc,
            by rw [hds5, hds4, hsds]⟩⟩

/-- C2 amended: a completed run whose validator is invalid for the first
`k` passes and valid on pass `k + 1` (with `k` below the ceiling `N`)
ends with `validation_attempts = k + 1` and a version history of length
`2 + 2k`: one snapshot from `LoadInputs`, one per optimization execution
(`1 + k` of them), and one per refinement execution (`k` of them) —
refinement appends its own snapshot in addition to the re-optimization
one, so each refinement round contributes two, not one. -/
theorem version_history_length (N : Nat) (paths : List String) (oracle : PhaseOracle)
    (fuel : Nat) (ctx0 ctxF : PipeCtx) (k : Nat)
    (hkN : k < N)
    (hstart : ctx0.validation_attempts = 0)
    (hv0 : ctx0.edited_resume_versions = [])
    (hinv : ∀ i, i < k → ∃ s : Int,
      validationScore (parse_llm_yaml_to_dict (oracle.validator i)) = .ok (.int s) ∧ 20 < s)
    (hval : ∃ s : Int,
      validationScore (parse_llm_yaml_to_dict (oracle.validator k)) = .ok (.int s) ∧ s ≤ 20)
    (hrun : runPipeline N paths oracle fuel ctx0 = .ok ctxF) :
    ctxF.validation_attempts = k + 1 ∧
    ctxF.edited_resume_versions.length = 2 + 2 * k := by
  unfold runPipeline at hrun
  cases h1 : loadInputsNode ctx0 with
  | error e => rw [h1] at hrun; exact absurd hrun (by simp)
  | ok c1 =>
    rw [h1] at hrun
    dsimp only at hrun
    have e1 := loadInputsNode_ok ctx0 c1 h1
    have hva1 : c1.validation_attempts = ctx0.validation_attempts := by rw [e1]
    have hl1 : c1.edited_resume_versions.length = 1 := by rw [e1]; simp [hv0]
    cases h2 : planningNode oracle c1 with
    | error e => rw [h2] at hrun; exact absurd hrun (by simp)
    | ok c2 =>
      rw [h2] at hrun
      dsimp only at hrun
      obtain ⟨_, hva2, _, _, hver2, _, _, _⟩ := planningNode_ok oracle c1 c2 h2
      have hl2 : c2.edited_resume_versions.length = 1 := by rw [hver2, hl1]
      cases h3 : optValLoop N paths oracle fuel c2 with
      | error e => rw [h3] at hrun; exact absurd hrun (by simp)
      | ok c3 =>
        rw [h3] at hrun
        dsimp only at hrun
        obtain ⟨hf1, hf2, hf3⟩ :=
          optValLoop_valid_at N paths oracle k hkN hinv hval fuel c2 c3 (by omega) h3
        cases h4 : formattingNode oracle c3 with
        | error e => rw [h4] at hrun; exact absurd hrun (by simp)
        | ok c4 =>
          rw [h4] at hrun
          dsimp only at hrun
          obtain ⟨_, _, hver4, hva4, _, _⟩ := formattingNode_ok oracle c3 c4 h4
          have e5 := outputCompileNode_ok c4 ctxF hrun
          have hva5 : ctxF.validation_attempts = c4.validation_attempts := by rw [e5]
          have hl5 : ctxF.edited_resume_versions.length
              = c4.edited_resume_versions.length := by rw [e5]
          have hl4 : c4.edited_resume_versions.length
              = c3.edited_resume_versions.length := by rw [hver4]
          refine ⟨by omega, ?_⟩
          omega

/-- C9: a completed pipeline run never mutates `input_resume`: the final
context carries exactly the input document the run started from (all
mutation happens on the deep copy `edited_resume`). -/
theorem input_resume_immutable (N : Nat) (paths : List String) (oracle : PhaseOracle)
    (fuel : Nat) (ctx0 ctxF : PipeCtx)
    (hrun : runPipeline N paths oracle fuel ctx0 = .ok ctxF) :
    ctxF.input_resume = ctx0.input_resume := by
  unfold runPipeline at hrun
  cases h1 : loadInputsNode ctx0 with
  | error e => rw [h1] at hrun; exact absurd hrun (by simp)
  | ok c1 =>
    rw [h1] at hrun
    dsimp only at hrun
    have e1 := loadInputsNode_ok ctx0 c1 h1
    have hi1 : c1.input_resume = ctx0.input_resume := by rw [e1]
    cases h2 : planningNode oracle c1 with
    | error e => rw [h2] at hrun; exact absurd hrun (by simp)
    | ok c2 =>
      rw [h2] at hrun
      dsimp only at hrun
      obtain ⟨hi2, _, _, _, _, _, _, _⟩ := planningNode_ok oracle c1 c2 h2
      cases h3 : optValLoop N paths oracle fuel c2 with
      | error e => rw [h3] at hrun; exact absurd hrun (by simp)
      | ok c3 =>
        rw [h3] at hrun
        dsimp only at hrun
        have hi3 := optValLoop_input N paths oracle fuel c2 c3 h3
        cases h4 : formattingNode oracle c3 with
        | error e => rw [h4] at hrun; exact absurd hrun (by simp)
        | ok c4 =>
          rw [h4] at hrun
          dsimp only at hrun
          obtain ⟨hi4, _, _, _, _, _⟩ := formattingNode_ok oracle c3 c4 h4
          have e5 := outputCompileNode_ok c4 ctxF hrun
          have hi5 : ctxF.input_resume = c4.input_resume := by rw [e5]
          rw [hi5, hi4, hi3, hi2, hi1]

/-! ### Concrete run fixtures for the pipeline claims -/

/-- An input document with the fields the phases read (`sections` for
formatting, `profile.description` for planning). -/
def exInput : Ydict :=
  [("sections", .list []), ("profile", .dict [("description", .str "old")])]

/-- The section paths of the fixture runs. -/
def exPaths : List String := ["profile.description"]

/-- The initial context of the fixture runs. -/
def exCtx0 : PipeCtx := initContext exInput "jd" "exp"

/-- An oracle whose validator always reports dishonesty score 50. -/
def exOracleInvalid : PhaseOracle :=
  ⟨"kw", "sm", "\x7b\x7d", "bp",
   fun _ => "\x7b\x7d",
   fun _ => "VALIDATION_RESULTS: \x7bDISHONESTY_SCORE: 50\x7d",
   fun _ => "\x7b\x7d",
   "\x7b\x7d"⟩

/-- An oracle whose validator reports 50 on the first pass and 10 on
every later pass: the refine loop is taken exactly once. -/
def exOracleKOne : PhaseOracle :=
  ⟨"kw", "sm", "\x7b\x7d", "bp",
   fun _ => "\x7b\x7d",
   fun i => if i = 0 then "VALIDATION_RESULTS: \x7bDISHONESTY_SCORE: 50\x7d"
            else "VALIDATION_RESULTS: \x7bDISHONESTY_SCORE: 10\x7d",
   fun _ => "\x7b\x7d",
   "\x7b\x7d"⟩

/-- C2 counterexample: a run with ceiling 5 that takes the refinement
loop exactly once (`validation_attempts = 2`) ends with a version history
of length 4, not `2 + 1 = 3`: refinement itself appends a snapshot in
addition to the one appended by the re-optimization. -/
theorem version_history_counterexample :
    (runPipeline 5 exPaths exOracleKOne 25 exCtx0).map
        (fun c => (c.validation_attempts, c.edited_resume_versions.length))
      = .ok (2, 4) ∧ (4 : Nat) ≠ 2 + 1 :=
  ⟨rfl, by decide⟩

/-- C2 witness: the amended count `2 + 2k` at `k = 1`. -/
theorem version_history_length_witness :
    (runPipeline 5 exPaths exOracleKOne 25 exCtx0).map
        (fun c => (c.validation_attempts, c.edited_resume_versions.length))
      = .ok (1 + 1, 2 + 2 * 1) := by
  cases hr : runPipeline 5 exPaths exOracleKOne 25 exCtx0 with
  | error e =>
    have hok : (runPipeline 5 exPaths exOracleKOne 25 exCtx0).isOk = true := rfl
    rw [hr] at hok
    simp [Except.isOk, Except.toBool] at hok
  | ok c =>
    obtain ⟨hva, hlen⟩ := version_history_length 5 exPaths exOracleKOne 25 exCtx0 c 1
      (by decide) rfl rfl
      (fun i hi => ⟨50, by have : i = 0 := by omega
                           subst this
                           rfl, by decide⟩)
      ⟨10, rfl, by decide⟩ hr
    simp [Except.map, hva, hlen]

/-- C3 witness: with ceiling 2 and the always-invalid validator the run
stops after exactly 2 validation passes with `is_valid` forced. -/
theorem validation_retry_ceiling_witness :
    (runPipeline 2 exPaths exOracleInvalid 25 exCtx0).map
        (fun c => (c.validation_attempts, c.is_valid))
      = .ok (2, some true) := by
  cases hr : runPipeline 2 exPaths exOracleInvalid 25 exCtx0 with
  | error e =>
    have hok : (runPipeline 2 exPaths exOracleInvalid 25 exCtx0).isOk = true := rfl
    rw [hr] at hok
    simp [Except.isOk, Except.toBool] at hok
  | ok c =>
    obtain ⟨hva, hiv, _⟩ := validation_retry_ceiling 2 exPaths exOracleInvalid 25 exCtx0 c
      (by decide) rfl (fun i _ => ⟨50, rfl, by decide⟩) hr
    simp [Except.map, hva, hiv]

/-- C9 witness: the fixture run ends with `input_resume` unchanged. -/
theorem input_resume_immutable_witness :
    (runPipeline 5 exPaths exOracleKOne 25 exCtx0).map (fun c => c.input_resume)
      = .ok exCtx0.input_resume := by
  cases hr : runPipeline 5 exPaths exOracleKOne 25 exCtx0 with
  | error e =>
    have hok : (runPipeline 5 exPaths exOracleKOne 25 exCtx0).isOk = true := rfl
    rw [hr] at hok
    simp [Except.isOk, Except.toBool] at hok
  | ok c =>
    have hi := input_resume_immutable 5 exPaths exOracleKOne 25 exCtx0 c hr
    simp [Except.map, hi]
